import Mathlib

/-!
Shallow embedding of the Live For Speed RAF parser (src/lfs.py) and
verification of the specification's claims about it.

Modelling conventions:
* A byte stream is a `List Nat` of byte values; the file cursor of the
  source's file object `f` is modelled by returning the unread remainder
  of the list alongside each parse result.
* `f.read(n)` in Python returns *up to* `n` bytes and never fails; a parse
  error arises only when `struct.unpack` receives a buffer of the wrong
  length (a `struct.error`, modelled as `Err.streamExhausted`).  Reads whose
  result is discarded (pure skips) therefore can never fail.
* `float32` fields never take part in arithmetic anywhere in the parser, so
  each one is modelled by its raw little-endian 32-bit pattern (a `Nat`).
  The only derived numeric computation, `heading`, is performed on the
  `int16` fields `fx`, `fy` and is modelled over `ℝ`.
-/

set_option maxRecDepth 100000

namespace LFSRaf

/-- Error kinds of the parser: the two explicit raise sites of the source
(signature and version gates) and the `struct.error` raised when a buffer
obtained from the stream is shorter than the unpack format requires. -/
inductive Err where
  | invalidSignature
  | unsupportedVersion
  | streamExhausted
deriving DecidableEq

/-- Models Python `f.read(n)`: returns up to `n` bytes plus the remainder of
the stream, never failing. -/
def rd (n : Nat) (s : List Nat) : List Nat × List Nat := (s.take n, s.drop n)

/-- Models `f.read(n)` whose result is discarded (a skip): the cursor
advances by at most `n` and no error can arise. -/
def rdSkip (n : Nat) (s : List Nat) : List Nat := s.drop n

/-- Models `f.read(n)` immediately followed by `struct.unpack` on the
buffer: `struct.error` (modelled as `streamExhausted`) is raised exactly
when fewer than `n` bytes were obtained. -/
def rdChk (n : Nat) (s : List Nat) : Except Err (List Nat × List Nat) :=
  if n ≤ s.length then .ok (s.take n, s.drop n) else .error .streamExhausted

/-- Little-endian 16-bit unsigned decode (struct code `<H`). -/
def u16le (b : List Nat) : Nat := b.getD 0 0 + 256 * b.getD 1 0

/-- Little-endian 32-bit unsigned decode (struct code `<I`). -/
def u32le (b : List Nat) : Nat :=
  b.getD 0 0 + 256 * b.getD 1 0 + 65536 * b.getD 2 0 + 16777216 * b.getD 3 0

/-- Little-endian `float32` field (struct code `<f`), kept as its raw 32-bit
pattern: the parser performs no arithmetic on any float field. -/
def f32le (b : List Nat) : Nat := u32le b

/-- Signed byte decode (struct code `b`). -/
def i8dec (n : Nat) : Int := if n < 128 then (n : Int) else (n : Int) - 256

/-- Little-endian signed 16-bit decode (struct code `<h`). -/
def i16le (b : List Nat) : Int :=
  if u16le b < 32768 then (u16le b : Int) else (u16le b : Int) - 65536

/-- Little-endian signed 32-bit decode (struct code `<i`). -/
def i32le (b : List Nat) : Int :=
  if u32le b < 2147483648 then (u32le b : Int) else (u32le b : Int) - 4294967296

/-- Models Python `s.find(null)`: index of the first null byte, if any. -/
def pyFind0 : List Nat → Option Nat
  | [] => none
  | c :: cs => if c = 0 then some 0 else (pyFind0 cs).map (· + 1)

/-- Models the source idiom `s[:s.find(null)]`: truncate at the first null
byte; when no null byte occurs Python's `find` returns `-1` and the slice
`s[:-1]` drops the final character. -/
def pyNullTrunc (s : List Nat) : List Nat :=
  match pyFind0 s with
  | some i => s.take i
  | none => s.dropLast

/-- Static per-wheel record (`class StaticWheelInfo`).  Every field is a
`float32` pattern except `tyre_type`, which the source initialises to `None`
and (due to unpacking into a local variable) never assigns, hence
`Option Nat`. -/
structure StaticWheelInfo where
  x : Nat
  y : Nat
  z : Nat
  radius : Nat
  width : Nat
  maximum_deflect : Nat
  tyre_type : Option Nat
  spring_constant : Nat
  damping_c : Nat
  damping_r : Nat
  max_brake_torque : Nat
deriving DecidableEq

/-- Reads one static wheel record: one checked 48-byte read unpacked with
format `<ffffffxxxxxBxxffff`, then an unchecked discard of 80 bytes.  The
tyre type byte at offset 29 of the buffer is unpacked into a local variable
in the source and never stored on the record. -/
def StaticWheelInfo.from_file (s : List Nat) : Except Err (StaticWheelInfo × List Nat) := do
  let (buf, s) ← rdChk 48 s
  let w : StaticWheelInfo :=
    { x := f32le (buf.take 4)
      y := f32le ((buf.drop 4).take 4)
      z := f32le ((buf.drop 8).take 4)
      radius := f32le ((buf.drop 12).take 4)
      width := f32le ((buf.drop 16).take 4)
      maximum_deflect := f32le ((buf.drop 20).take 4)
      tyre_type := none
      spring_constant := f32le ((buf.drop 32).take 4)
      damping_c := f32le ((buf.drop 36).take 4)
      damping_r := f32le ((buf.drop 40).take 4)
      max_brake_torque := f32le ((buf.drop 44).take 4) }
  .ok (w, rdSkip 80 s)

/-- Dynamic per-wheel record (`class DynamicWheelInfo`): seven `float32`
patterns followed by two signed bytes. -/
structure DynamicWheelInfo where
  suspension_deflect : Nat
  steer : Nat
  x_force : Nat
  y_force : Nat
  vertical_load : Nat
  angular_velocity : Nat
  lean : Nat
  air_temp : Int
  slip_fraction : Int
deriving DecidableEq

/-- Reads one dynamic wheel record: one checked 32-byte read unpacked with
format `<fffffffbbxx` (the two trailing pad bytes are inside the checked
buffer). -/
def DynamicWheelInfo.from_file (s : List Nat) : Except Err (DynamicWheelInfo × List Nat) := do
  let (buf, s) ← rdChk 32 s
  let d : DynamicWheelInfo :=
    { suspension_deflect := f32le (buf.take 4)
      steer := f32le ((buf.drop 4).take 4)
      x_force := f32le ((buf.drop 8).take 4)
      y_force := f32le ((buf.drop 12).take 4)
      vertical_load := f32le ((buf.drop 16).take 4)
      angular_velocity := f32le ((buf.drop 20).take 4)
      lean := f32le ((buf.drop 24).take 4)
      air_temp := i8dec (buf.getD 28 0)
      slip_fraction := i8dec (buf.getD 29 0) }
  .ok (d, s)

/-- Models `math.atan2` over the reals: `Complex.arg` of the complex number
with real part `x` and imaginary part `y` is `atan2 y x`. -/
noncomputable def atan2 (y x : ℝ) : ℝ := Complex.arg (Complex.mk x y)

/-- One telemetry sample (`class DataBlock`).  Field types follow the unpack
format `<fffffbbbbffiiiffhhhhhh`: five `float32` patterns, four signed
bytes, two `float32`, three `int32`, two `float32`, six `int16`; `heading`
is derived over `ℝ` and `wheels` is filled in by the replay loop. -/
structure DataBlock where
  throttle : Nat
  brake : Nat
  input_steer : Nat
  clutch : Nat
  handbrake : Nat
  gear : Int
  lateral_g : Int
  forward_g : Int
  upwards_g : Int
  speed : Nat
  car_distance : Nat
  position_x : Int
  position_y : Int
  position_z : Int
  engine_speed : Nat
  index_distance : Nat
  rx : Int
  ry : Int
  rz : Int
  fx : Int
  fy : Int
  fz : Int
  heading : ℝ
  wheels : List DynamicWheelInfo

/-- Reads one data block: one checked 64-byte read unpacked with format
`<fffffbbbbffiiiffhhhhhh`, then the derived heading
`atan2(-(fx/32767), fy/32767)` computed from the just-decoded `fx`, `fy`.
The wheel list starts empty; the replay loop appends to it. -/
noncomputable def DataBlock.from_file (s : List Nat) : Except Err (DataBlock × List Nat) := do
  let (buf, s) ← rdChk 64 s
  let fxv := i16le ((buf.drop 58).take 2)
  let fyv := i16le ((buf.drop 60).take 2)
  let b : ℝ := (fxv : ℝ) / 32767
  let e : ℝ := (fyv : ℝ) / 32767
  let blk : DataBlock :=
    { throttle := f32le (buf.take 4)
      brake := f32le ((buf.drop 4).take 4)
      input_steer := f32le ((buf.drop 8).take 4)
      clutch := f32le ((buf.drop 12).take 4)
      handbrake := f32le ((buf.drop 16).take 4)
      gear := i8dec (buf.getD 20 0)
      lateral_g := i8dec (buf.getD 21 0)
      forward_g := i8dec (buf.getD 22 0)
      upwards_g := i8dec (buf.getD 23 0)
      speed := f32le ((buf.drop 24).take 4)
      car_distance := f32le ((buf.drop 28).take 4)
      position_x := i32le ((buf.drop 32).take 4)
      position_y := i32le ((buf.drop 36).take 4)
      position_z := i32le ((buf.drop 40).take 4)
      engine_speed := f32le ((buf.drop 44).take 4)
      index_distance := f32le ((buf.drop 48).take 4)
      rx := i16le ((buf.drop 52).take 2)
      ry := i16le ((buf.drop 54).take 2)
      rz := i16le ((buf.drop 56).take 2)
      fx := fxv
      fy := fyv
      fz := i16le ((buf.drop 62).take 2)
      heading := atan2 (-b) e
      wheels := [] }
  .ok (blk, s)

/-- Runtime value of `replay.player_flags`: normally the driver-aid flag
byte, but the source reassigns a boolean into the same attribute when the
hlvc byte is nonzero, so the field is a sum of both shapes. -/
inductive PlayerFlags where
  | flagsByte (n : Nat)
  | hlvcBool (b : Bool)
deriving DecidableEq

/-- Root record (`class Replay`), with the fields of the source constructor.
Strings are byte lists; `float32` fields are 32-bit patterns; `hlvc_legal`
is `Option Bool` (the source initialises it to `None` and never assigns
it). -/
structure Replay where
  raf_version : Nat
  lfs_version : List Nat
  update_interval : Nat
  short_track_name : List Nat
  track_ruler_length : Nat
  player : List Nat
  car : List Nat
  track : List Nat
  config : List Nat
  weather : List Nat
  player_flags : PlayerFlags
  num_wheels : Nat
  hlvc_legal : Option Bool
  num_splits : Nat
  splits : List Int
  mass : Nat
  sprung_mass : Nat
  antiroll_rear : Nat
  antiroll_front : Nat
  final_drive : Nat
  num_gears : Nat
  gear_ratios : List (List Nat)
  static_wheel_info : List StaticWheelInfo
  data : List DataBlock

/-- The ASCII bytes of the literal signature `LFSRAF`. -/
def sigBytes : List Nat := [76, 70, 83, 82, 65, 70]

/-- Header portion of `Replay.from_file` after the signature and version
gates: the remaining sequential reads of the source, through the 272-byte
padding skip.  Returns the partially populated replay (wheel and data lists
still empty), the decoded block count and the remaining stream. -/
def parseHeaderRest (rafVersion updateInterval : Nat) (s : List Nat) :
    Except Err (Replay × Nat × List Nat) := do
  let s := rdSkip 2 s
  let (hbuf, s) ← rdChk 12 s
  let numBlocks := u32le ((hbuf.drop 8).take 4)
  let (stn, s) ← rdChk 4 s
  let (trl, s) ← rdChk 4 s
  let (pbuf, s) ← rdChk 32 s
  let (cbuf, s) ← rdChk 32 s
  let (tbuf, s) ← rdChk 32 s
  let (cfbuf, s) ← rdChk 16 s
  let (wbuf, s) ← rdChk 16 s
  let (vbuf, s) ← rdChk 8 s
  let (fbuf, s) ← rdChk 4 s
  let pfByte := fbuf.getD 0 0
  let numWheels := fbuf.getD 1 0
  let hlvc := fbuf.getD 2 0
  let numSplits := fbuf.getD 3 0
  let pf := if 0 < hlvc then PlayerFlags.hlvcBool (hlvc == 1) else PlayerFlags.flagsByte pfByte
  let (sbuf, s) ← rdChk 16 s
  let splits := ([i32le (sbuf.take 4), i32le ((sbuf.drop 4).take 4),
                  i32le ((sbuf.drop 8).take 4), i32le ((sbuf.drop 12).take 4)]).take numSplits
  let (mbuf, s) ← rdChk 20 s
  let (gbuf, s) ← rdChk 1 s
  let s := rdSkip 3 s
  let (grbuf, s) ← rdChk 28 s
  let s := rdSkip 272 s
  .ok ({ raf_version := rafVersion
         lfs_version := pyNullTrunc vbuf
         update_interval := updateInterval
         short_track_name := pyNullTrunc stn
         track_ruler_length := f32le trl
         player := pyNullTrunc pbuf
         car := pyNullTrunc cbuf
         track := pyNullTrunc tbuf
         config := pyNullTrunc cfbuf
         weather := pyNullTrunc wbuf
         player_flags := pf
         num_wheels := numWheels
         hlvc_legal := none
         num_splits := numSplits
         splits := splits
         mass := f32le (mbuf.take 4)
         sprung_mass := f32le ((mbuf.drop 4).take 4)
         antiroll_rear := f32le ((mbuf.drop 8).take 4)
         antiroll_front := f32le ((mbuf.drop 12).take 4)
         final_drive := f32le ((mbuf.drop 16).take 4)
         num_gears := gbuf.getD 0 0
         gear_ratios := [[f32le (grbuf.take 4), f32le ((grbuf.drop 4).take 4),
                          f32le ((grbuf.drop 8).take 4), f32le ((grbuf.drop 12).take 4),
                          f32le ((grbuf.drop 16).take 4), f32le ((grbuf.drop 20).take 4),
                          f32le ((grbuf.drop 24).take 4)]]
         static_wheel_info := []
         data := [] }, numBlocks, s)

/-- Header reader: the signature gate (6 checked bytes compared with
`LFSRAF`), a 2-byte skip, the version gate (2 checked bytes, abort when the
decoded version exceeds 2), then `parseHeaderRest`. -/
def parseHeader (s : List Nat) : Except Err (Replay × Nat × List Nat) := do
  let (sig, s) ← rdChk 6 s
  if sig ≠ sigBytes then .error .invalidSignature
  else
    let s := rdSkip 2 s
    let (vb, s) ← rdChk 2 s
    if 2 < vb.getD 0 0 then .error .unsupportedVersion
    else parseHeaderRest (vb.getD 0 0) (vb.getD 1 0) s

/-- Reads `n` consecutive static wheel records. -/
def readStatics : Nat → List Nat → Except Err (List StaticWheelInfo × List Nat)
  | 0, s => .ok ([], s)
  | n + 1, s => do
    let (w, s) ← StaticWheelInfo.from_file s
    let (ws, s) ← readStatics n s
    .ok (w :: ws, s)

/-- Reads `n` consecutive dynamic wheel records. -/
def readDyns : Nat → List Nat → Except Err (List DynamicWheelInfo × List Nat)
  | 0, s => .ok ([], s)
  | n + 1, s => do
    let (d, s) ← DynamicWheelInfo.from_file s
    let (ds, s) ← readDyns n s
    .ok (d :: ds, s)

/-- Reads `n` consecutive data blocks, each followed by `nw` dynamic wheel
records appended to the block's wheel list. -/
noncomputable def readBlocks (nw : Nat) : Nat → List Nat → Except Err (List DataBlock × List Nat)
  | 0, s => .ok ([], s)
  | n + 1, s => do
    let (b, s) ← DataBlock.from_file s
    let (ds, s) ← readDyns nw s
    let (bs, s) ← readBlocks nw n s
    .ok ({ b with wheels := ds } :: bs, s)

/-- Full replay parse (`Replay.from_file`): header, then one static wheel
record per wheel, then the data blocks.  The unread remainder of the stream
models the final position of the file cursor. -/
noncomputable def Replay.from_file (s : List Nat) : Except Err (Replay × List Nat) := do
  let (r0, nb, s) ← parseHeader s
  let (ws, s) ← readStatics r0.num_wheels s
  let (bs, s) ← readBlocks r0.num_wheels nb s
  .ok ({ r0 with static_wheel_info := ws, data := bs }, s)

/-!
Encoders.  The repository parses only; the round-trip claim speaks of
encoding a replay back into the documented binary layout, so the writer
side is modelled from the specification.
-/

/-- Little-endian 16-bit encode. -/
def u16e (v : Nat) : List Nat := [v % 256, v / 256 % 256]

/-- Little-endian 32-bit encode. -/
def u32e (v : Nat) : List Nat := [v % 256, v / 256 % 256, v / 65536 % 256, v / 16777216 % 256]

/-- Two's-complement single-byte encode. -/
def i8e (v : Int) : Nat := (v % 256).toNat

/-- Two's-complement little-endian 16-bit encode. -/
def i16e (v : Int) : List Nat := u16e ((v % 65536).toNat)

/-- Two's-complement little-endian 32-bit encode. -/
def i32e (v : Int) : List Nat := u32e ((v % 4294967296).toNat)

/-- Modelled from the spec: a fixed-width null-padded string field. -/
def strE (w : Nat) (cs : List Nat) : List Nat := cs ++ List.replicate (w - cs.length) 0

/-- Modelled from the spec: the fixed four-slot signed split storage,
holding the recorded splits followed by zero padding. -/
def encSplits (l : List Int) : List Nat :=
  (l.map i32e).flatten ++ List.replicate (4 * (4 - l.length)) 0

/-- Byte written back for the `player_flags` field (meaningful only in its
numeric shape). -/
def pfByteOf : PlayerFlags → Nat
  | .flagsByte n => n
  | .hlvcBool _ => 0

/-- Byte written for the hotlap-legality tri-state: 0 unknown, 1 legal,
2 illegal. -/
def hlvcByteOf : Option Bool → Nat
  | none => 0
  | some true => 1
  | some false => 2

/-- Projection of the `lean` field of a dynamic wheel record. -/
def leanOf : DynamicWheelInfo → Nat
  | ⟨_, _, _, _, _, _, v, _, _⟩ => v

/-- Modelled from the spec: one 128-byte static wheel record (45-byte is the
spec's arithmetic; the field region is 48 bytes as enumerated, then 80
reserved bytes). -/
def encStatic (w : StaticWheelInfo) : List Nat :=
  (u32e w.x ++ u32e w.y ++ u32e w.z ++ u32e w.radius ++ u32e w.width ++ u32e w.maximum_deflect
    ++ List.replicate 5 0 ++ [w.tyre_type.getD 0] ++ [0, 0]
    ++ u32e w.spring_constant ++ u32e w.damping_c ++ u32e w.damping_r ++ u32e w.max_brake_torque)
    ++ List.replicate 80 0

/-- Modelled from the spec: one 32-byte dynamic wheel record. -/
def encDyn (d : DynamicWheelInfo) : List Nat :=
  u32e d.suspension_deflect ++ u32e d.steer ++ u32e d.x_force ++ u32e d.y_force
    ++ u32e d.vertical_load ++ u32e d.angular_velocity ++ u32e (leanOf d)
    ++ [i8e d.air_temp, i8e d.slip_fraction] ++ [0, 0]

/-- Modelled from the spec: the 64 fixed bytes of one data block. -/
def encBlockFixed (b : DataBlock) : List Nat :=
  u32e b.throttle ++ u32e b.brake ++ u32e b.input_steer ++ u32e b.clutch ++ u32e b.handbrake
    ++ [i8e b.gear, i8e b.lateral_g, i8e b.forward_g, i8e b.upwards_g]
    ++ u32e b.speed ++ u32e b.car_distance
    ++ i32e b.position_x ++ i32e b.position_y ++ i32e b.position_z
    ++ u32e b.engine_speed ++ u32e b.index_distance
    ++ i16e b.rx ++ i16e b.ry ++ i16e b.rz ++ i16e b.fx ++ i16e b.fy ++ i16e b.fz

/-- Modelled from the spec: one data block followed by its per-wheel dynamic
records. -/
def encBlock (b : DataBlock) : List Nat := encBlockFixed b ++ (b.wheels.map encDyn).flatten

/-- Modelled from the spec: the fixed 512-byte header region of the layout,
segment by segment in read order (unstored gap fields are written as
zeros). -/
def encHeader (r : Replay) : List Nat :=
  sigBytes ++ [0, 0] ++ [r.raf_version, r.update_interval] ++ [0, 0]
    ++ (List.replicate 8 0 ++ u32e r.data.length)
    ++ strE 4 r.short_track_name ++ u32e r.track_ruler_length
    ++ strE 32 r.player ++ strE 32 r.car ++ strE 32 r.track
    ++ strE 16 r.config ++ strE 16 r.weather ++ strE 8 r.lfs_version
    ++ [pfByteOf r.player_flags, r.num_wheels, hlvcByteOf r.hlvc_legal, r.num_splits]
    ++ encSplits r.splits
    ++ (u32e r.mass ++ u32e r.sprung_mass ++ u32e r.antiroll_rear
        ++ u32e r.antiroll_front ++ u32e r.final_drive)
    ++ [r.num_gears] ++ [0, 0, 0]
    ++ ((r.gear_ratios.flatten).map u32e).flatten
    ++ List.replicate 272 0

/-- Modelled from the spec: the complete documented binary layout of a
replay. -/
def encode (r : Replay) : List Nat :=
  encHeader r ++ (r.static_wheel_info.map encStatic).flatten ++ (r.data.map encBlock).flatten

/-!
Representability in the documented binary layout.
-/

/-- A byte-string value fits a width-`w` fixed string field of the layout
with a terminator: nonzero byte values strictly shorter than the field. -/
def StrRep (w : Nat) (cs : List Nat) : Prop :=
  cs.length < w ∧ ∀ c ∈ cs, c ≠ 0 ∧ c < 256

instance (w : Nat) (cs : List Nat) : Decidable (StrRep w cs) := by
  unfold StrRep; infer_instance

/-- Field ranges of a representable static wheel record; `tyre_type` must be
absent because the reader never populates it. -/
def WheelRep (w : StaticWheelInfo) : Prop :=
  w.tyre_type = none ∧ w.x < 4294967296 ∧ w.y < 4294967296 ∧ w.z < 4294967296 ∧
  w.radius < 4294967296 ∧ w.width < 4294967296 ∧ w.maximum_deflect < 4294967296 ∧
  w.spring_constant < 4294967296 ∧ w.damping_c < 4294967296 ∧
  w.damping_r < 4294967296 ∧ w.max_brake_torque < 4294967296

instance (w : StaticWheelInfo) : Decidable (WheelRep w) := by
  unfold WheelRep; infer_instance

/-- Field ranges of a representable dynamic wheel record. -/
def DynRep (d : DynamicWheelInfo) : Prop :=
  d.suspension_deflect < 4294967296 ∧ d.steer < 4294967296 ∧ d.x_force < 4294967296 ∧
  d.y_force < 4294967296 ∧ d.vertical_load < 4294967296 ∧ d.angular_velocity < 4294967296 ∧
  leanOf d < 4294967296 ∧ -128 ≤ d.air_temp ∧ d.air_temp < 128 ∧
  -128 ≤ d.slip_fraction ∧ d.slip_fraction < 128

instance (d : DynamicWheelInfo) : Decidable (DynRep d) := by
  unfold DynRep; infer_instance

/-- Field ranges of a representable data block with `nw` wheels. -/
def BlockRep (nw : Nat) (b : DataBlock) : Prop :=
  b.throttle < 4294967296 ∧ b.brake < 4294967296 ∧ b.input_steer < 4294967296 ∧
  b.clutch < 4294967296 ∧ b.handbrake < 4294967296 ∧
  -128 ≤ b.gear ∧ b.gear < 128 ∧ -128 ≤ b.lateral_g ∧ b.lateral_g < 128 ∧
  -128 ≤ b.forward_g ∧ b.forward_g < 128 ∧ -128 ≤ b.upwards_g ∧ b.upwards_g < 128 ∧
  b.speed < 4294967296 ∧ b.car_distance < 4294967296 ∧
  -2147483648 ≤ b.position_x ∧ b.position_x < 2147483648 ∧
  -2147483648 ≤ b.position_y ∧ b.position_y < 2147483648 ∧
  -2147483648 ≤ b.position_z ∧ b.position_z < 2147483648 ∧
  b.engine_speed < 4294967296 ∧ b.index_distance < 4294967296 ∧
  -32768 ≤ b.rx ∧ b.rx < 32768 ∧ -32768 ≤ b.ry ∧ b.ry < 32768 ∧
  -32768 ≤ b.rz ∧ b.rz < 32768 ∧ -32768 ≤ b.fx ∧ b.fx < 32768 ∧
  -32768 ≤ b.fy ∧ b.fy < 32768 ∧ -32768 ≤ b.fz ∧ b.fz < 32768 ∧
  b.wheels.length = nw ∧ ∀ d ∈ b.wheels, DynRep d

instance (nw : Nat) (b : DataBlock) : Decidable (BlockRep nw b) := by
  unfold BlockRep; infer_instance

/-- A replay value representable in the documented binary layout, with the
constraints the reader itself forces on a value it could ever produce:
strings carry terminators, `player_flags` is in its numeric byte shape,
`hlvc_legal` is unknown and `tyre_type` absent (the reader never sets
either), the split list matches its count (at most the four stored slots),
`gear_ratios` is the single 7-slot group, and the wheel and block lists
match the stored counts. -/
def Representable (r : Replay) : Prop :=
  r.raf_version ≤ 2 ∧ r.update_interval < 256 ∧
  StrRep 4 r.short_track_name ∧ r.track_ruler_length < 4294967296 ∧
  StrRep 32 r.player ∧ StrRep 32 r.car ∧ StrRep 32 r.track ∧
  StrRep 16 r.config ∧ StrRep 16 r.weather ∧ StrRep 8 r.lfs_version ∧
  r.player_flags = .flagsByte (pfByteOf r.player_flags) ∧ pfByteOf r.player_flags < 256 ∧
  r.num_wheels < 256 ∧ r.hlvc_legal = none ∧
  r.num_splits = r.splits.length ∧ r.splits.length ≤ 4 ∧
  (∀ x ∈ r.splits, -2147483648 ≤ x ∧ x < 2147483648) ∧
  r.mass < 4294967296 ∧ r.sprung_mass < 4294967296 ∧ r.antiroll_rear < 4294967296 ∧
  r.antiroll_front < 4294967296 ∧ r.final_drive < 4294967296 ∧
  r.num_gears < 256 ∧
  r.gear_ratios.length = 1 ∧ (r.gear_ratios.getD 0 []).length = 7 ∧
  (∀ x ∈ r.gear_ratios.getD 0 [], x < 4294967296) ∧
  r.static_wheel_info.length = r.num_wheels ∧
  (∀ w ∈ r.static_wheel_info, WheelRep w) ∧
  r.data.length < 4294967296 ∧ (∀ b ∈ r.data, BlockRep r.num_wheels b)

instance (r : Replay) : Decidable (Representable r) := by
  unfold Representable; infer_instance

def nbOf (s : List Nat) : Nat := u32le ((s.drop 20).take 4)

def headerOf (s : List Nat) : Replay :=
  { raf_version := s.getD 8 0
    lfs_version := pyNullTrunc ((s.drop 160).take 8)
    update_interval := s.getD 9 0
    short_track_name := pyNullTrunc ((s.drop 24).take 4)
    track_ruler_length := f32le ((s.drop 28).take 4)
    player := pyNullTrunc ((s.drop 32).take 32)
    car := pyNullTrunc ((s.drop 64).take 32)
    track := pyNullTrunc ((s.drop 96).take 32)
    config := pyNullTrunc ((s.drop 128).take 16)
    weather := pyNullTrunc ((s.drop 144).take 16)
    player_flags := if 0 < s.getD 170 0 then .hlvcBool (s.getD 170 0 == 1)
                    else .flagsByte (s.getD 168 0)
    num_wheels := s.getD 169 0
    hlvc_legal := none
    num_splits := s.getD 171 0
    splits := ([i32le ((s.drop 172).take 4), i32le ((s.drop 176).take 4),
                i32le ((s.drop 180).take 4), i32le ((s.drop 184).take 4)]).take (s.getD 171 0)
    mass := f32le ((s.drop 188).take 4)
    sprung_mass := f32le ((s.drop 192).take 4)
    antiroll_rear := f32le ((s.drop 196).take 4)
    antiroll_front := f32le ((s.drop 200).take 4)
    final_drive := f32le ((s.drop 204).take 4)
    num_gears := s.getD 208 0
    gear_ratios := [[f32le ((s.drop 212).take 4), f32le ((s.drop 216).take 4),
                     f32le ((s.drop 220).take 4), f32le ((s.drop 224).take 4),
                     f32le ((s.drop 228).take 4), f32le ((s.drop 232).take 4),
                     f32le ((s.drop 236).take 4)]]
    static_wheel_info := []
    data := [] }

/-- Decoded static wheel record at the head of stream `s`. -/
def staticOf (s : List Nat) : StaticWheelInfo :=
  { x := f32le (s.take 4)
    y := f32le ((s.drop 4).take 4)
    z := f32le ((s.drop 8).take 4)
    radius := f32le ((s.drop 12).take 4)
    width := f32le ((s.drop 16).take 4)
    maximum_deflect := f32le ((s.drop 20).take 4)
    tyre_type := none
    spring_constant := f32le ((s.drop 32).take 4)
    damping_c := f32le ((s.drop 36).take 4)
    damping_r := f32le ((s.drop 40).take 4)
    max_brake_torque := f32le ((s.drop 44).take 4) }

/-- Decoded dynamic wheel record at the head of stream `s`. -/
def dynOf (s : List Nat) : DynamicWheelInfo :=
  { suspension_deflect := f32le (s.take 4)
    steer := f32le ((s.drop 4).take 4)
    x_force := f32le ((s.drop 8).take 4)
    y_force := f32le ((s.drop 12).take 4)
    vertical_load := f32le ((s.drop 16).take 4)
    angular_velocity := f32le ((s.drop 20).take 4)
    lean := f32le ((s.drop 24).take 4)
    air_temp := i8dec (s.getD 28 0)
    slip_fraction := i8dec (s.getD 29 0) }

/-- Decoded data block at the head of stream `s` (wheel list still empty). -/
noncomputable def blockOf (s : List Nat) : DataBlock :=
  { throttle := f32le (s.take 4)
    brake := f32le ((s.drop 4).take 4)
    input_steer := f32le ((s.drop 8).take 4)
    clutch := f32le ((s.drop 12).take 4)
    handbrake := f32le ((s.drop 16).take 4)
    gear := i8dec (s.getD 20 0)
    lateral_g := i8dec (s.getD 21 0)
    forward_g := i8dec (s.getD 22 0)
    upwards_g := i8dec (s.getD 23 0)
    speed := f32le ((s.drop 24).take 4)
    car_distance := f32le ((s.drop 28).take 4)
    position_x := i32le ((s.drop 32).take 4)
    position_y := i32le ((s.drop 36).take 4)
    position_z := i32le ((s.drop 40).take 4)
    engine_speed := f32le ((s.drop 44).take 4)
    index_distance := f32le ((s.drop 48).take 4)
    rx := i16le ((s.drop 52).take 2)
    ry := i16le ((s.drop 54).take 2)
    rz := i16le ((s.drop 56).take 2)
    fx := i16le ((s.drop 58).take 2)
    fy := i16le ((s.drop 60).take 2)
    fz := i16le ((s.drop 62).take 2)
    heading := atan2 (-((i16le ((s.drop 58).take 2) : ℝ) / 32767))
                 ((i16le ((s.drop 60).take 2) : ℝ) / 32767)
    wheels := [] }

/-- Total byte count of a parse: fixed 512-byte header region, 128 bytes per
static wheel record, and per sample 64 fixed bytes plus 32 per wheel. -/
def totalBytes (nw nb : Nat) : Nat := 512 + 128 * nw + (64 + 32 * nw) * nb

/-!
Concrete streams and values used to witness and refute claims.
-/

/-- Value of a successful result, or a default. -/
def okOr {α : Type} (x : Except Err α) (d : α) : α :=
  match x with
  | .ok a => a
  | .error _ => d

/-- Error kind of a failed result, if any. -/
def errOf {α : Type} (x : Except Err α) : Option Err :=
  match x with
  | .error e => some e
  | .ok _ => none

/-- Builder for a well-formed 512-byte header region: signature, version 2,
update interval 10, given block count, player-name bytes, flag bytes, wheel
count, hlvc byte and split count; every other field zero. -/
def mkHdr (nb nw hlvc pf ns : Nat) (playerBytes : List Nat) : List Nat :=
  [76, 70, 83, 82, 65, 70] ++ [0, 0] ++ [2, 10] ++ [0, 0] ++ List.replicate 8 0
    ++ [nb, 0, 0, 0] ++ List.replicate 8 0 ++ playerBytes ++ List.replicate 104 0
    ++ [pf, nw, hlvc, ns] ++ List.replicate 340 0

/-- Minimal complete stream: header only, no wheels, no samples. -/
def base512 : List Nat := mkHdr 0 0 0 0 0 (List.replicate 32 0)

/-- The same stream cut off inside the trailing 272-byte padding skip. -/
def trunc240 : List Nat := base512.take 240

/-- Header declaring five splits (more than the four stored slots). -/
def c5s : List Nat := mkHdr 0 0 0 0 5 (List.replicate 32 0)

/-- Header declaring two splits. -/
def c5w : List Nat := mkHdr 0 0 0 0 2 (List.replicate 32 0)

/-- Header whose player field is 32 non-null bytes (no terminator). -/
def c6s : List Nat := mkHdr 0 0 0 0 0 (List.replicate 32 65)

/-- Header with player-flag byte 5 and hlvc byte 1 (legal). -/
def c7s1 : List Nat := mkHdr 0 0 1 5 0 (List.replicate 32 0)

/-- Header with player-flag byte 5 and hlvc byte 2 (illegal). -/
def c7s2 : List Nat := mkHdr 0 0 2 5 0 (List.replicate 32 0)

/-- Header with player-flag byte 5 and hlvc byte 0 (unknown). -/
def c7s0 : List Nat := mkHdr 0 0 0 5 0 (List.replicate 32 0)

/-- Stream with one sample and no wheels whose block has fx = 32767, fy = 0. -/
def c3s : List Nat :=
  mkHdr 1 0 0 0 0 (List.replicate 32 0) ++ (List.replicate 58 0 ++ [255, 127, 0, 0, 0, 0])

/-- Stream with one wheel and one sample. -/
def c4s : List Nat :=
  mkHdr 1 1 0 0 0 (List.replicate 32 0) ++ List.replicate 128 0 ++ List.replicate 96 0

/-- A stream that does not begin with the signature. -/
def badSig : List Nat := List.replicate 512 7

/-- Default replay value (decode of the empty stream). -/
def dfltReplay : Replay := headerOf []

/-- Default data block value (decode of the empty stream). -/
noncomputable def dfltBlock : DataBlock := blockOf []

/-- Parsed replay of the one-wheel one-sample stream. -/
noncomputable def c4r : Replay := (okOr (Replay.from_file c4s) (dfltReplay, [])).1

/-- Parsed replay of the fx = 32767 stream. -/
noncomputable def c3r : Replay := (okOr (Replay.from_file c3s) (dfltReplay, [])).1

/-- Parsed replay of the two-split stream. -/
noncomputable def c5r : Replay := (okOr (Replay.from_file c5w) (dfltReplay, [])).1

/-- Parsed replay of the minimal complete stream. -/
noncomputable def baseR : Replay := (okOr (Replay.from_file base512) (dfltReplay, [])).1

/-- The derived heading of the only block of the fx = 32767 stream. -/
noncomputable def c3heading : ℝ := (c3r.data.getD 0 dfltBlock).heading

/-- Recomputed-heading normal form of a data block: what a parse of that
block's encoding returns. -/
noncomputable def hFix (b : DataBlock) : DataBlock :=
  { b with heading := atan2 (-((b.fx : ℝ) / 32767)) ((b.fy : ℝ) / 32767) }

/-- Replay value whose player field fills its full 32-byte width with no
null byte (everything else minimal). -/
def c1r0 : Replay := { dfltReplay with player := List.replicate 32 65 }

/-- Representable replay with one wheel and one sample. -/
noncomputable def c1r1 : Replay :=
  { dfltReplay with
      num_wheels := 1
      static_wheel_info := [staticOf (List.replicate 48 1)]
      data := [{ blockOf (List.replicate 64 2) with wheels := [dynOf (List.replicate 32 3)] }] }

/-!
Proof layer: primitive-reader facts, codec inverses, exact characterizations
of every reader, and the claim theorems with their witnesses and
counterexamples.
-/

theorem ebind_ok {α β : Type} (a : α) (f : α → Except Err β) :
    (Except.ok a : Except Err α) >>= f = f a := rfl

theorem ebind_err {α β : Type} (e : Err) (f : α → Except Err β) :
    (Except.error e : Except Err α) >>= f = .error e := rfl

theorem rdChk_of_le {n : Nat} {s : List Nat} (h : n ≤ s.length) :
    rdChk n s = .ok (s.take n, s.drop n) := by simp [rdChk, h]

theorem getD_drop (s : List Nat) (a i : Nat) : (s.drop a).getD i 0 = s.getD (a + i) 0 := by
  simp [List.getD_eq_getElem?_getD, List.getElem?_drop]

theorem getD_take {i n : Nat} (s : List Nat) (h : i < n) : (s.take n).getD i 0 = s.getD i 0 := by
  simp [List.getD_eq_getElem?_getD, List.getElem?_take, h]

theorem u16le_u16e {v : Nat} (h : v < 65536) : u16le (u16e v) = v := by
  show v % 256 + 256 * (v / 256 % 256) = v
  omega

theorem u32le_u32e {v : Nat} (h : v < 4294967296) : u32le (u32e v) = v := by
  show v % 256 + 256 * (v / 256 % 256) + 65536 * (v / 65536 % 256) + 16777216 * (v / 16777216 % 256) = v
  omega

theorem i8dec_i8e {v : Int} (h1 : -128 ≤ v) (h2 : v < 128) : i8dec (i8e v) = v := by
  unfold i8dec i8e
  split <;> omega

theorem i16le_i16e {v : Int} (h1 : -32768 ≤ v) (h2 : v < 32768) : i16le (i16e v) = v := by
  unfold i16le i16e
  rw [u16le_u16e (by omega)]
  split <;> omega

theorem i32le_i32e {v : Int} (h1 : -2147483648 ≤ v) (h2 : v < 2147483648) :
    i32le (i32e v) = v := by
  unfold i32le i32e
  rw [u32le_u32e (by omega)]
  split <;> omega

theorem parseHeader_of {s : List Nat} (h6 : s.take 6 = sigBytes)
    (hv : s.getD 8 0 ≤ 2) (hl : 240 ≤ s.length) :
    parseHeader s = .ok (headerOf s, nbOf s, s.drop 512) := by
  unfold parseHeader
  rw [rdChk_of_le (show (6:Nat) ≤ s.length by omega)]
  simp only [ebind_ok, rdSkip, List.drop_drop, Nat.reduceAdd]
  rw [h6, if_neg (by simp)]
  rw [rdChk_of_le (show (2:Nat) ≤ (s.drop 8).length by simp only [List.length_drop]; omega)]
  simp only [ebind_ok, rdSkip, List.drop_drop, Nat.reduceAdd]
  simp +decide only [getD_take, getD_drop, Nat.reduceAdd]
  rw [if_neg (by omega)]
  unfold parseHeaderRest
  simp only [ebind_ok, rdSkip, List.drop_drop, Nat.reduceAdd]
  rw [rdChk_of_le (show (12:Nat) ≤ (s.drop 12).length by simp only [List.length_drop]; omega)]
  simp only [ebind_ok, rdSkip, List.drop_drop, Nat.reduceAdd]
  rw [rdChk_of_le (show (4:Nat) ≤ (s.drop 24).length by simp only [List.length_drop]; omega)]
  simp only [ebind_ok, rdSkip, List.drop_drop, Nat.reduceAdd]
  rw [rdChk_of_le (show (4:Nat) ≤ (s.drop 28).length by simp only [List.length_drop]; omega)]
  simp only [ebind_ok, rdSkip, List.drop_drop, Nat.reduceAdd]
  rw [rdChk_of_le (show (32:Nat) ≤ (s.drop 32).length by simp only [List.length_drop]; omega)]
  simp only [ebind_ok, rdSkip, List.drop_drop, Nat.reduceAdd]
  rw [rdChk_of_le (show (32:Nat) ≤ (s.drop 64).length by simp only [List.length_drop]; omega)]
  simp only [ebind_ok, rdSkip, List.drop_drop, Nat.reduceAdd]
  rw [rdChk_of_le (show (32:Nat) ≤ (s.drop 96).length by simp only [List.length_drop]; omega)]
  simp only [ebind_ok, rdSkip, List.drop_drop, Nat.reduceAdd]
  rw [rdChk_of_le (show (16:Nat) ≤ (s.drop 128).length by simp only [List.length_drop]; omega)]
  simp only [ebind_ok, rdSkip, List.drop_drop, Nat.reduceAdd]
  rw [rdChk_of_le (show (16:Nat) ≤ (s.drop 144).length by simp only [List.length_drop]; omega)]
  simp only [ebind_ok, rdSkip, List.drop_drop, Nat.reduceAdd]
  rw [rdChk_of_le (show (8:Nat) ≤ (s.drop 160).length by simp only [List.length_drop]; omega)]
  simp only [ebind_ok, rdSkip, List.drop_drop, Nat.reduceAdd]
  rw [rdChk_of_le (show (4:Nat) ≤ (s.drop 168).length by simp only [List.length_drop]; omega)]
  simp only [ebind_ok, rdSkip, List.drop_drop, Nat.reduceAdd]
  rw [rdChk_of_le (show (16:Nat) ≤ (s.drop 172).length by simp only [List.length_drop]; omega)]
  simp only [ebind_ok, rdSkip, List.drop_drop, Nat.reduceAdd]
  rw [rdChk_of_le (show (20:Nat) ≤ (s.drop 188).length by simp only [List.length_drop]; omega)]
  simp only [ebind_ok, rdSkip, List.drop_drop, Nat.reduceAdd]
  rw [rdChk_of_le (show (1:Nat) ≤ (s.drop 208).length by simp only [List.length_drop]; omega)]
  simp only [ebind_ok, rdSkip, List.drop_drop, Nat.reduceAdd]
  rw [rdChk_of_le (show (28:Nat) ≤ (s.drop 212).length by simp only [List.length_drop]; omega)]
  simp only [ebind_ok, rdSkip, List.drop_drop, Nat.reduceAdd]
  simp +decide only [headerOf, nbOf, List.drop_take, List.take_take, List.drop_drop, Nat.reduceAdd,
    Nat.reduceSub, getD_drop, getD_take]
  simp

theorem rdChk_ok_inv {n : Nat} {s : List Nat} {p} (h : rdChk n s = .ok p) :
    n ≤ s.length ∧ p = (s.take n, s.drop n) := by
  unfold rdChk at h
  split at h
  next hc => cases h; exact ⟨hc, rfl⟩
  next hc => simp at h

theorem rdChk_err_inv {n : Nat} {s : List Nat} {e} (h : rdChk n s = .error e) :
    e = .streamExhausted ∧ s.length < n := by
  unfold rdChk at h
  split at h
  next hc => simp at h
  next hc => cases h; exact ⟨rfl, by omega⟩

theorem bind_onlySE {α β : Type} {x : Except Err α} {f : α → Except Err β}
    (hx : ∀ e, x = .error e → e = .streamExhausted)
    (hf : ∀ a e, f a = .error e → e = .streamExhausted) :
    ∀ e, x >>= f = .error e → e = .streamExhausted := by
  intro e h
  cases x with
  | error e2 =>
    rw [ebind_err] at h
    injection h with h2
    subst h2
    exact hx _ rfl
  | ok a => exact hf a e h

theorem sig_len {s : List Nat} (h : s.take 6 = sigBytes) : 6 ≤ s.length := by
  by_contra hc
  have := congrArg List.length h
  simp [sigBytes] at this
  omega

theorem parseHeaderRest_onlySE (v u : Nat) (s : List Nat) :
    ∀ e, parseHeaderRest v u s = .error e → e = .streamExhausted := by
  unfold parseHeaderRest
  refine bind_onlySE (fun e h => (rdChk_err_inv h).1) ?_
  rintro ⟨hbuf, s1⟩
  refine bind_onlySE (fun e h => (rdChk_err_inv h).1) ?_
  rintro ⟨stn, s2⟩
  refine bind_onlySE (fun e h => (rdChk_err_inv h).1) ?_
  rintro ⟨trl, s3⟩
  refine bind_onlySE (fun e h => (rdChk_err_inv h).1) ?_
  rintro ⟨pbuf, s4⟩
  refine bind_onlySE (fun e h => (rdChk_err_inv h).1) ?_
  rintro ⟨cbuf, s5⟩
  refine bind_onlySE (fun e h => (rdChk_err_inv h).1) ?_
  rintro ⟨tbuf, s6⟩
  refine bind_onlySE (fun e h => (rdChk_err_inv h).1) ?_
  rintro ⟨cfbuf, s7⟩
  refine bind_onlySE (fun e h => (rdChk_err_inv h).1) ?_
  rintro ⟨wbuf, s8⟩
  refine bind_onlySE (fun e h => (rdChk_err_inv h).1) ?_
  rintro ⟨vbuf, s9⟩
  refine bind_onlySE (fun e h => (rdChk_err_inv h).1) ?_
  rintro ⟨fbuf, s10⟩
  refine bind_onlySE (fun e h => (rdChk_err_inv h).1) ?_
  rintro ⟨sbuf, s11⟩
  refine bind_onlySE (fun e h => (rdChk_err_inv h).1) ?_
  rintro ⟨mbuf, s12⟩
  refine bind_onlySE (fun e h => (rdChk_err_inv h).1) ?_
  rintro ⟨gbuf, s13⟩
  refine bind_onlySE (fun e h => (rdChk_err_inv h).1) ?_
  rintro ⟨grbuf, s14⟩
  intro e h
  simp at h

theorem bind_ok_inv {α β : Type} {x : Except Err α} {f : α → Except Err β} {out : β}
    (h : x >>= f = .ok out) : ∃ a, x = .ok a ∧ f a = .ok out := by
  cases x with
  | error e =>
    rw [ebind_err] at h
    exact absurd h (by simp)
  | ok a => exact ⟨a, rfl, h⟩

theorem parseHeaderRest_ok_len {v u : Nat} {s : List Nat} {out}
    (h : parseHeaderRest v u s = .ok out) : 230 ≤ s.length := by
  unfold parseHeaderRest at h
  simp only [rdSkip] at h
  obtain ⟨p0, hx0, h⟩ := bind_ok_inv h
  obtain ⟨hle0, hp⟩ := rdChk_ok_inv hx0
  subst hp
  simp only [rdSkip, List.drop_drop, Nat.reduceAdd] at h
  obtain ⟨p1, hx1, h⟩ := bind_ok_inv h
  obtain ⟨hle1, hp⟩ := rdChk_ok_inv hx1
  subst hp
  simp only [rdSkip, List.drop_drop, Nat.reduceAdd] at h
  obtain ⟨p2, hx2, h⟩ := bind_ok_inv h
  obtain ⟨hle2, hp⟩ := rdChk_ok_inv hx2
  subst hp
  simp only [rdSkip, List.drop_drop, Nat.reduceAdd] at h
  obtain ⟨p3, hx3, h⟩ := bind_ok_inv h
  obtain ⟨hle3, hp⟩ := rdChk_ok_inv hx3
  subst hp
  simp only [rdSkip, List.drop_drop, Nat.reduceAdd] at h
  obtain ⟨p4, hx4, h⟩ := bind_ok_inv h
  obtain ⟨hle4, hp⟩ := rdChk_ok_inv hx4
  subst hp
  simp only [rdSkip, List.drop_drop, Nat.reduceAdd] at h
  obtain ⟨p5, hx5, h⟩ := bind_ok_inv h
  obtain ⟨hle5, hp⟩ := rdChk_ok_inv hx5
  subst hp
  simp only [rdSkip, List.drop_drop, Nat.reduceAdd] at h
  obtain ⟨p6, hx6, h⟩ := bind_ok_inv h
  obtain ⟨hle6, hp⟩ := rdChk_ok_inv hx6
  subst hp
  simp only [rdSkip, List.drop_drop, Nat.reduceAdd] at h
  obtain ⟨p7, hx7, h⟩ := bind_ok_inv h
  obtain ⟨hle7, hp⟩ := rdChk_ok_inv hx7
  subst hp
  simp only [rdSkip, List.drop_drop, Nat.reduceAdd] at h
  obtain ⟨p8, hx8, h⟩ := bind_ok_inv h
  obtain ⟨hle8, hp⟩ := rdChk_ok_inv hx8
  subst hp
  simp only [rdSkip, List.drop_drop, Nat.reduceAdd] at h
  obtain ⟨p9, hx9, h⟩ := bind_ok_inv h
  obtain ⟨hle9, hp⟩ := rdChk_ok_inv hx9
  subst hp
  simp only [rdSkip, List.drop_drop, Nat.reduceAdd] at h
  obtain ⟨p10, hx10, h⟩ := bind_ok_inv h
  obtain ⟨hle10, hp⟩ := rdChk_ok_inv hx10
  subst hp
  simp only [rdSkip, List.drop_drop, Nat.reduceAdd] at h
  obtain ⟨p11, hx11, h⟩ := bind_ok_inv h
  obtain ⟨hle11, hp⟩ := rdChk_ok_inv hx11
  subst hp
  simp only [rdSkip, List.drop_drop, Nat.reduceAdd] at h
  obtain ⟨p12, hx12, h⟩ := bind_ok_inv h
  obtain ⟨hle12, hp⟩ := rdChk_ok_inv hx12
  subst hp
  simp only [rdSkip, List.drop_drop, Nat.reduceAdd] at h
  obtain ⟨p13, hx13, h⟩ := bind_ok_inv h
  obtain ⟨hle13, hp⟩ := rdChk_ok_inv hx13
  subst hp
  simp only [List.length_drop] at hle13
  omega

theorem parseHeader_gates {s : List Nat} (h6 : s.take 6 = sigBytes) (h10 : 10 ≤ s.length) :
    parseHeader s = if 2 < s.getD 8 0 then .error .unsupportedVersion
                    else parseHeaderRest (s.getD 8 0) (s.getD 9 0) (s.drop 10) := by
  unfold parseHeader
  rw [rdChk_of_le (by omega)]
  simp only [ebind_ok, rdSkip, List.drop_drop, Nat.reduceAdd]
  rw [if_neg (by simp [h6])]
  rw [rdChk_of_le (by simp only [List.length_drop]; omega)]
  simp +decide only [ebind_ok, rdSkip, List.drop_drop, getD_take, getD_drop, Nat.reduceAdd]

theorem parseHeader_sigFail {s : List Nat} (h6 : 6 ≤ s.length) (hsig : s.take 6 ≠ sigBytes) :
    parseHeader s = .error .invalidSignature := by
  unfold parseHeader
  rw [rdChk_of_le h6]
  simp only [ebind_ok]
  rw [if_pos hsig]

theorem parseHeader_shortSig {s : List Nat} (h6 : s.length < 6) :
    parseHeader s = .error .streamExhausted := by
  unfold parseHeader
  rw [rdChk, if_neg (by omega)]
  rfl

theorem parseHeader_shortVer {s : List Nat} (h6 : s.take 6 = sigBytes) (h : s.length < 10) :
    parseHeader s = .error .streamExhausted := by
  unfold parseHeader
  rw [rdChk_of_le (sig_len h6)]
  simp only [ebind_ok, rdSkip, List.drop_drop, Nat.reduceAdd]
  rw [if_neg (by simp [h6])]
  rw [rdChk, if_neg (by simp only [List.length_drop]; omega)]
  rfl

theorem parseHeader_IS_iff (s : List Nat) :
    parseHeader s = .error .invalidSignature ↔ 6 ≤ s.length ∧ s.take 6 ≠ sigBytes := by
  constructor
  · intro h
    by_cases h6 : 6 ≤ s.length
    · by_cases hsig : s.take 6 = sigBytes
      · by_cases h10 : 10 ≤ s.length
        · rw [parseHeader_gates hsig h10] at h
          by_cases hv : 2 < s.getD 8 0
          · rw [if_pos hv] at h
            exact absurd h (by simp)
          · rw [if_neg hv] at h
            exact absurd (parseHeaderRest_onlySE _ _ _ _ h) (by simp)
        · rw [parseHeader_shortVer hsig (by omega)] at h
          exact absurd h (by simp)
      · exact ⟨h6, hsig⟩
    · rw [parseHeader_shortSig (by omega)] at h
      exact absurd h (by simp)
  · rintro ⟨h6, hsig⟩
    exact parseHeader_sigFail h6 hsig

theorem parseHeader_UV_iff (s : List Nat) :
    parseHeader s = .error .unsupportedVersion ↔
      s.take 6 = sigBytes ∧ 10 ≤ s.length ∧ 2 < s.getD 8 0 := by
  constructor
  · intro h
    by_cases h6 : 6 ≤ s.length
    · by_cases hsig : s.take 6 = sigBytes
      · by_cases h10 : 10 ≤ s.length
        · rw [parseHeader_gates hsig h10] at h
          by_cases hv : 2 < s.getD 8 0
          · exact ⟨hsig, h10, hv⟩
          · rw [if_neg hv] at h
            exact absurd (parseHeaderRest_onlySE _ _ _ _ h) (by simp)
        · rw [parseHeader_shortVer hsig (by omega)] at h
          exact absurd h (by simp)
      · rw [parseHeader_sigFail h6 hsig] at h
        exact absurd h (by simp)
    · rw [parseHeader_shortSig (by omega)] at h
      exact absurd h (by simp)
  · rintro ⟨hsig, h10, hv⟩
    rw [parseHeader_gates hsig h10, if_pos hv]

theorem parseHeader_ok_inv {s : List Nat} {out} (h : parseHeader s = .ok out) :
    s.take 6 = sigBytes ∧ s.getD 8 0 ≤ 2 ∧ 240 ≤ s.length ∧
      out = (headerOf s, nbOf s, s.drop 512) := by
  have h6 : 6 ≤ s.length := by
    by_contra hc
    rw [parseHeader_shortSig (by omega)] at h
    exact absurd h (by simp)
  have hsig : s.take 6 = sigBytes := by
    by_contra hc
    rw [parseHeader_sigFail h6 hc] at h
    exact absurd h (by simp)
  have h10 : 10 ≤ s.length := by
    by_contra hc
    rw [parseHeader_shortVer hsig (by omega)] at h
    exact absurd h (by simp)
  have hver : s.getD 8 0 ≤ 2 := by
    by_contra hc
    rw [parseHeader_gates hsig h10, if_pos (by omega)] at h
    exact absurd h (by simp)
  have hlen : 240 ≤ s.length := by
    rw [parseHeader_gates hsig h10, if_neg (by omega)] at h
    have := parseHeaderRest_ok_len h
    simp only [List.length_drop] at this
    omega
  rw [parseHeader_of hsig hver hlen] at h
  injection h with h2
  exact ⟨hsig, hver, hlen, h2.symm⟩

theorem take_take_of_le {m n : Nat} (l : List Nat) (h : m ≤ n) :
    (l.take n).take m = l.take m := by
  rw [List.take_take, inf_eq_left.mpr h]

theorem static_of {s : List Nat} (h : 48 ≤ s.length) :
    StaticWheelInfo.from_file s = .ok (staticOf s, s.drop 128) := by
  unfold StaticWheelInfo.from_file
  rw [rdChk_of_le h]
  simp +decide only [ebind_ok, rdSkip, List.drop_drop, List.drop_take, take_take_of_le,
    Nat.reduceAdd, Nat.reduceSub, staticOf]

theorem static_ok_inv {s t : List Nat} {w} (h : StaticWheelInfo.from_file s = .ok (w, t)) :
    48 ≤ s.length ∧ w = staticOf s ∧ t = s.drop 128 := by
  have h48 : 48 ≤ s.length := by
    by_contra hc
    unfold StaticWheelInfo.from_file at h
    rw [rdChk, if_neg (by omega)] at h
    exact absurd h (by simp [ebind_err])
  rw [static_of h48] at h
  injection h with h3
  injection h3 with h4 h5
  exact ⟨h48, h4.symm, h5.symm⟩

theorem static_onlySE (s : List Nat) :
    ∀ e, StaticWheelInfo.from_file s = .error e → e = .streamExhausted := by
  unfold StaticWheelInfo.from_file
  refine bind_onlySE (fun e h => (rdChk_err_inv h).1) ?_
  rintro ⟨buf, s1⟩
  intro e h
  exact absurd h (by simp)

theorem dyn_of {s : List Nat} (h : 32 ≤ s.length) :
    DynamicWheelInfo.from_file s = .ok (dynOf s, s.drop 32) := by
  unfold DynamicWheelInfo.from_file
  rw [rdChk_of_le h]
  simp +decide only [ebind_ok, List.drop_drop, List.drop_take, take_take_of_le,
    getD_take, getD_drop, Nat.reduceAdd, Nat.reduceSub, dynOf]

theorem dyn_ok_inv {s t : List Nat} {d} (h : DynamicWheelInfo.from_file s = .ok (d, t)) :
    32 ≤ s.length ∧ d = dynOf s ∧ t = s.drop 32 := by
  have h32 : 32 ≤ s.length := by
    by_contra hc
    unfold DynamicWheelInfo.from_file at h
    rw [rdChk, if_neg (by omega)] at h
    exact absurd h (by simp [ebind_err])
  rw [dyn_of h32] at h
  injection h with h3
  injection h3 with h4 h5
  exact ⟨h32, h4.symm, h5.symm⟩

theorem dyn_onlySE (s : List Nat) :
    ∀ e, DynamicWheelInfo.from_file s = .error e → e = .streamExhausted := by
  unfold DynamicWheelInfo.from_file
  refine bind_onlySE (fun e h => (rdChk_err_inv h).1) ?_
  rintro ⟨buf, s1⟩
  intro e h
  exact absurd h (by simp)

theorem block_of {s : List Nat} (h : 64 ≤ s.length) :
    DataBlock.from_file s = .ok (blockOf s, s.drop 64) := by
  unfold DataBlock.from_file
  rw [rdChk_of_le h]
  simp +decide only [ebind_ok, List.drop_drop, List.drop_take, take_take_of_le,
    getD_take, getD_drop, Nat.reduceAdd, Nat.reduceSub, blockOf]

theorem block_ok_inv {s t : List Nat} {b} (h : DataBlock.from_file s = .ok (b, t)) :
    64 ≤ s.length ∧ b = blockOf s ∧ t = s.drop 64 := by
  have h64 : 64 ≤ s.length := by
    by_contra hc
    unfold DataBlock.from_file at h
    rw [rdChk, if_neg (by omega)] at h
    exact absurd h (by simp [ebind_err])
  rw [block_of h64] at h
  injection h with h3
  injection h3 with h4 h5
  exact ⟨h64, h4.symm, h5.symm⟩

theorem block_onlySE (s : List Nat) :
    ∀ e, DataBlock.from_file s = .error e → e = .streamExhausted := by
  unfold DataBlock.from_file
  refine bind_onlySE (fun e h => (rdChk_err_inv h).1) ?_
  rintro ⟨buf, s1⟩
  intro e h
  exact absurd h (by simp)

theorem readStatics_of {n : Nat} {s : List Nat} (h : 128 * n ≤ s.length) :
    ∃ ws, readStatics n s = .ok (ws, s.drop (128 * n)) ∧ ws.length = n := by
  induction n generalizing s with
  | zero => exact ⟨[], by simp [readStatics], rfl⟩
  | succ n ih =>
    obtain ⟨ws, hws, hlen⟩ := ih (s := s.drop 128) (by simp only [List.length_drop]; omega)
    refine ⟨staticOf s :: ws, ?_, by simp [hlen]⟩
    unfold readStatics
    rw [static_of (by omega)]
    simp only [ebind_ok]
    rw [hws]
    simp only [ebind_ok, List.drop_drop]
    have harith : 128 + 128 * n = 128 * (n + 1) := by ring
    rw [harith]

theorem readStatics_ok_inv {n : Nat} {s t : List Nat} {ws}
    (h : readStatics n s = .ok (ws, t)) :
    ws.length = n ∧ t = s.drop (128 * n) := by
  induction n generalizing s ws t with
  | zero =>
    unfold readStatics at h
    injection h with h2
    injection h2 with h3 h4
    subst h3
    subst h4
    exact ⟨rfl, by simp⟩
  | succ n ih =>
    unfold readStatics at h
    obtain ⟨p, hx, h⟩ := bind_ok_inv h
    obtain ⟨w, s1⟩ := p
    obtain ⟨h48, hw, hs1⟩ := static_ok_inv hx
    subst hs1
    obtain ⟨p2, hx2, h⟩ := bind_ok_inv h
    obtain ⟨ws2, t2⟩ := p2
    obtain ⟨hlen2, ht2⟩ := ih hx2
    injection h with h2
    injection h2 with h3 h4
    subst h3
    subst h4
    refine ⟨by simp [hlen2], ?_⟩
    rw [ht2]
    simp only [List.drop_drop]
    have : 128 + 128 * n = 128 * (n + 1) := by ring
    rw [this]

theorem readStatics_onlySE (n : Nat) (s : List Nat) :
    ∀ e, readStatics n s = .error e → e = .streamExhausted := by
  induction n generalizing s with
  | zero => intro e h; exact absurd h (by simp [readStatics])
  | succ n ih =>
    unfold readStatics
    refine bind_onlySE (static_onlySE s) ?_
    rintro ⟨w, s1⟩
    refine bind_onlySE (ih s1) ?_
    rintro ⟨ws, s2⟩
    intro e h
    exact absurd h (by simp)

theorem readDyns_of {n : Nat} {s : List Nat} (h : 32 * n ≤ s.length) :
    ∃ ds, readDyns n s = .ok (ds, s.drop (32 * n)) ∧ ds.length = n := by
  induction n generalizing s with
  | zero => exact ⟨[], by simp [readDyns], rfl⟩
  | succ n ih =>
    obtain ⟨ds, hds, hlen⟩ := ih (s := s.drop 32) (by simp only [List.length_drop]; omega)
    refine ⟨dynOf s :: ds, ?_, by simp [hlen]⟩
    unfold readDyns
    rw [dyn_of (by omega)]
    simp only [ebind_ok]
    rw [hds]
    simp only [ebind_ok, List.drop_drop]
    have harith : 32 + 32 * n = 32 * (n + 1) := by ring
    rw [harith]

theorem readDyns_ok_inv {n : Nat} {s t : List Nat} {ds}
    (h : readDyns n s = .ok (ds, t)) :
    ds.length = n ∧ t = s.drop (32 * n) := by
  induction n generalizing s ds t with
  | zero =>
    unfold readDyns at h
    injection h with h2
    injection h2 with h3 h4
    subst h3
    subst h4
    exact ⟨rfl, by simp⟩
  | succ n ih =>
    unfold readDyns at h
    obtain ⟨p, hx, h⟩ := bind_ok_inv h
    obtain ⟨d, s1⟩ := p
    obtain ⟨h32, hd, hs1⟩ := dyn_ok_inv hx
    subst hs1
    obtain ⟨p2, hx2, h⟩ := bind_ok_inv h
    obtain ⟨ds2, t2⟩ := p2
    obtain ⟨hlen2, ht2⟩ := ih hx2
    injection h with h2
    injection h2 with h3 h4
    subst h3
    subst h4
    refine ⟨by simp [hlen2], ?_⟩
    rw [ht2]
    simp only [List.drop_drop]
    have : 32 + 32 * n = 32 * (n + 1) := by ring
    rw [this]

theorem readDyns_onlySE (n : Nat) (s : List Nat) :
    ∀ e, readDyns n s = .error e → e = .streamExhausted := by
  induction n generalizing s with
  | zero => intro e h; exact absurd h (by simp [readDyns])
  | succ n ih =>
    unfold readDyns
    refine bind_onlySE (dyn_onlySE s) ?_
    rintro ⟨d, s1⟩
    refine bind_onlySE (ih s1) ?_
    rintro ⟨ds, s2⟩
    intro e h
    exact absurd h (by simp)

theorem readBlocks_of {nw n : Nat} {s : List Nat} (h : (64 + 32 * nw) * n ≤ s.length) :
    ∃ bs, readBlocks nw n s = .ok (bs, s.drop ((64 + 32 * nw) * n)) ∧ bs.length = n := by
  induction n generalizing s with
  | zero => exact ⟨[], by simp [readBlocks], rfl⟩
  | succ n ih =>
    have hstep : 64 + 32 * nw ≤ s.length :=
      le_trans (Nat.le_mul_of_pos_right _ (Nat.succ_pos n)) h
    obtain ⟨ds, hds, hdlen⟩ := readDyns_of (n := nw) (s := s.drop 64)
      (by simp only [List.length_drop]; omega)
    obtain ⟨bs, hbs, hblen⟩ := ih (s := (s.drop 64).drop (32 * nw)) (by
      simp only [List.length_drop, Nat.sub_sub]
      refine Nat.le_sub_of_add_le ?_
      calc (64 + 32 * nw) * n + (64 + 32 * nw) = (64 + 32 * nw) * (n + 1) := by ring
        _ ≤ s.length := h)
    refine ⟨{ blockOf s with wheels := ds } :: bs, ?_, by simp [hblen]⟩
    unfold readBlocks
    rw [block_of (by omega)]
    simp only [ebind_ok]
    rw [hds]
    simp only [ebind_ok]
    rw [hbs]
    simp only [ebind_ok, List.drop_drop]
    rw [show 64 + 32 * nw + (64 + 32 * nw) * n = (64 + 32 * nw) * (n + 1) from by ring]

theorem readBlocks_ok_inv {nw n : Nat} {s t : List Nat} {bs}
    (h : readBlocks nw n s = .ok (bs, t)) :
    bs.length = n ∧ t = s.drop ((64 + 32 * nw) * n) ∧
      ∀ b ∈ bs, b.wheels.length = nw ∧
        b.heading = atan2 (-((b.fx : ℝ) / 32767)) ((b.fy : ℝ) / 32767) := by
  induction n generalizing s bs t with
  | zero =>
    unfold readBlocks at h
    injection h with h2
    injection h2 with h3 h4
    subst h3
    subst h4
    exact ⟨rfl, by simp, by simp⟩
  | succ n ih =>
    unfold readBlocks at h
    obtain ⟨p, hx, h⟩ := bind_ok_inv h
    obtain ⟨b, s1⟩ := p
    obtain ⟨h64, hb, hs1⟩ := block_ok_inv hx
    subst hs1
    obtain ⟨p2, hx2, h⟩ := bind_ok_inv h
    obtain ⟨ds, s2⟩ := p2
    obtain ⟨hdlen, hs2⟩ := readDyns_ok_inv hx2
    subst hs2
    obtain ⟨p3, hx3, h⟩ := bind_ok_inv h
    obtain ⟨bs3, t3⟩ := p3
    obtain ⟨hblen, ht3, hall⟩ := ih hx3
    injection h with h2
    injection h2 with h3 h4
    subst h3
    subst h4
    refine ⟨by simp [hblen], ?_, ?_⟩
    · rw [ht3]
      simp only [List.drop_drop]
      rw [show 64 + 32 * nw + (64 + 32 * nw) * n = (64 + 32 * nw) * (n + 1) from by ring]
    · intro b2 hmem
      rcases List.mem_cons.mp hmem with hhead | htail
      · subst hhead
        subst hb
        refine ⟨by simp [hdlen], ?_⟩
        simp [blockOf]
      · exact hall b2 htail

theorem readBlocks_onlySE (nw n : Nat) (s : List Nat) :
    ∀ e, readBlocks nw n s = .error e → e = .streamExhausted := by
  induction n generalizing s with
  | zero => intro e h; exact absurd h (by simp [readBlocks])
  | succ n ih =>
    unfold readBlocks
    refine bind_onlySE (block_onlySE s) ?_
    rintro ⟨b, s1⟩
    refine bind_onlySE (readDyns_onlySE nw s1) ?_
    rintro ⟨ds, s2⟩
    refine bind_onlySE (ih s2) ?_
    rintro ⟨bs, s3⟩
    intro e h
    exact absurd h (by simp)

theorem from_file_of {s : List Nat} (hsig : s.take 6 = sigBytes) (hv : s.getD 8 0 ≤ 2)
    (hlen : totalBytes (s.getD 169 0) (nbOf s) ≤ s.length) :
    ∃ r t, Replay.from_file s = .ok (r, t) := by
  have h512 : 512 + 128 * s.getD 169 0 ≤ s.length := by
    refine le_trans ?_ hlen
    exact Nat.le_add_right _ _
  unfold Replay.from_file
  rw [parseHeader_of hsig hv (by omega)]
  simp only [ebind_ok]
  obtain ⟨ws, hws, hwlen⟩ := readStatics_of (n := (headerOf s).num_wheels)
    (s := s.drop 512) (by
      simp only [List.length_drop]
      have : (headerOf s).num_wheels = s.getD 169 0 := rfl
      rw [this]
      omega)
  rw [hws]
  simp only [ebind_ok]
  obtain ⟨bs, hbs, hblen⟩ := @readBlocks_of (headerOf s).num_wheels
    (nbOf s) ((s.drop 512).drop (128 * (headerOf s).num_wheels)) (by
      simp only [List.length_drop, Nat.sub_sub]
      refine Nat.le_sub_of_add_le ?_
      have : (headerOf s).num_wheels = s.getD 169 0 := rfl
      rw [this]
      unfold totalBytes at hlen
      omega)
  rw [hbs]
  simp only [ebind_ok]
  exact ⟨_, _, rfl⟩

theorem from_file_ok_inv {s t : List Nat} {r} (h : Replay.from_file s = .ok (r, t)) :
    s.take 6 = sigBytes ∧ s.getD 8 0 ≤ 2 ∧ 240 ≤ s.length ∧
      r.num_wheels = s.getD 169 0 ∧
      r.static_wheel_info.length = r.num_wheels ∧
      r.data.length = nbOf s ∧
      (∀ b ∈ r.data, b.wheels.length = r.num_wheels ∧
        b.heading = atan2 (-((b.fx : ℝ) / 32767)) ((b.fy : ℝ) / 32767)) ∧
      t = s.drop (totalBytes r.num_wheels r.data.length) ∧
      r = { headerOf s with static_wheel_info := r.static_wheel_info, data := r.data } := by
  unfold Replay.from_file at h
  obtain ⟨p, hx, h⟩ := bind_ok_inv h
  obtain ⟨r0, p1⟩ := p
  obtain ⟨nb, s1⟩ := p1
  obtain ⟨hsig, hver, h240, hout⟩ := parseHeader_ok_inv hx
  injection hout with hr0 hrest
  injection hrest with hnb hs1
  subst hr0
  subst hnb
  subst hs1
  obtain ⟨p2, hx2, h⟩ := bind_ok_inv h
  obtain ⟨ws, s2⟩ := p2
  obtain ⟨hwlen, hs2⟩ := readStatics_ok_inv hx2
  subst hs2
  obtain ⟨p3, hx3, h⟩ := bind_ok_inv h
  obtain ⟨bs, s3⟩ := p3
  obtain ⟨hblen, hs3, hall⟩ := readBlocks_ok_inv hx3
  subst hs3
  injection h with h1
  injection h1 with hr ht
  subst hr
  subst ht
  refine ⟨hsig, hver, h240, rfl, by simp [hwlen], by simp [hblen], by simpa using hall, ?_, rfl⟩
  simp only [List.drop_drop]
  unfold totalBytes
  simp [hwlen, hblen]

theorem from_file_onlyErr (s : List Nat) :
    ∀ e, Replay.from_file s = .error e → parseHeader s = .error e ∨ e = .streamExhausted := by
  unfold Replay.from_file
  intro e h
  cases hx : parseHeader s with
  | error e2 =>
    rw [hx, ebind_err] at h
    injection h with h2
    subst h2
    exact Or.inl rfl
  | ok p =>
    rw [hx] at h
    obtain ⟨r0, p1⟩ := p
    obtain ⟨nb, s1⟩ := p1
    simp only [ebind_ok] at h
    refine Or.inr (bind_onlySE (readStatics_onlySE _ _) ?_ e h)
    rintro ⟨ws, s2⟩
    refine bind_onlySE (readBlocks_onlySE _ _ _) ?_
    rintro ⟨bs, s3⟩
    intro e2 h2
    exact absurd h2 (by simp)

theorem pyFind0_append_zero (cs t : List Nat) (h : ∀ c ∈ cs, c ≠ 0) :
    pyFind0 (cs ++ 0 :: t) = some cs.length := by
  induction cs with
  | nil => simp [pyFind0]
  | cons c cs ih =>
    have hc : c ≠ 0 := h c (by simp)
    simp only [List.cons_append, pyFind0, if_neg hc, List.append_eq]
    rw [ih (fun x hx => h x (by simp [hx]))]
    simp

theorem pyFind0_none {cs : List Nat} (h : ∀ c ∈ cs, c ≠ 0) : pyFind0 cs = none := by
  induction cs with
  | nil => rfl
  | cons c cs ih =>
    have hc : c ≠ 0 := h c (by simp)
    simp only [pyFind0, if_neg hc]
    rw [ih (fun x hx => h x (by simp [hx]))]
    rfl

theorem pyNullTrunc_append_zero {cs : List Nat} (t : List Nat) (h : ∀ c ∈ cs, c ≠ 0) :
    pyNullTrunc (cs ++ 0 :: t) = cs := by
  unfold pyNullTrunc
  rw [pyFind0_append_zero cs t h]
  exact List.take_left cs (0 :: t)

theorem pyNullTrunc_no_zero {cs : List Nat} (h : ∀ c ∈ cs, c ≠ 0) :
    pyNullTrunc cs = cs.dropLast := by
  unfold pyNullTrunc
  rw [pyFind0_none h]

theorem pyNullTrunc_strE {w : Nat} {cs : List Nat} (h : ∀ c ∈ cs, c ≠ 0)
    (hl : cs.length < w) : pyNullTrunc (strE w cs) = cs := by
  unfold strE
  have hk : w - cs.length = (w - cs.length - 1) + 1 := by omega
  rw [hk, List.replicate_succ]
  exact pyNullTrunc_append_zero _ h

theorem from_file_err_iff {s : List Nat} {e : Err} (hne : e ≠ .streamExhausted) :
    Replay.from_file s = .error e ↔ parseHeader s = .error e := by
  constructor
  · intro h
    rcases from_file_onlyErr s e h with h2 | h2
    · exact h2
    · exact absurd h2 hne
  · intro h
    unfold Replay.from_file
    rw [h, ebind_err]

theorem atan2_neg_one_zero : atan2 (-1) 0 = -(Real.pi / 2) := by
  unfold atan2
  have h : Complex.mk 0 (-1) = -Complex.I := by
    apply Complex.ext <;> simp
  rw [h, Complex.arg_neg_I]

/-- C2 (amended): the parser fails with exactly three error kinds.
InvalidSignature arises exactly when at least 6 bytes are present and the
first 6 are not `LFSRAF`; UnsupportedVersion exactly when the signature
matched, at least 10 bytes are present and the version byte exceeds 2;
every stream passing both gates with at least the full computed byte count
parses successfully; and any error is one of the three kinds.  (Original
claim corrected: truncation confined to skip regions does not raise - see
the counterexample.) -/
theorem C2_error_taxonomy (s : List Nat) :
    (Replay.from_file s = .error .invalidSignature ↔
      6 ≤ s.length ∧ s.take 6 ≠ sigBytes) ∧
    (Replay.from_file s = .error .unsupportedVersion ↔
      s.take 6 = sigBytes ∧ 10 ≤ s.length ∧ 2 < s.getD 8 0) ∧
    (s.take 6 = sigBytes → s.getD 8 0 ≤ 2 →
      totalBytes (s.getD 169 0) (nbOf s) ≤ s.length →
      ∃ r t, Replay.from_file s = .ok (r, t)) ∧
    (∀ e, Replay.from_file s = .error e →
      e = .invalidSignature ∨ e = .unsupportedVersion ∨ e = .streamExhausted) := by
  refine ⟨?_, ?_, ?_, ?_⟩
  · rw [from_file_err_iff (by simp)]
    exact parseHeader_IS_iff s
  · rw [from_file_err_iff (by simp)]
    exact parseHeader_UV_iff s
  · intro hsig hv hlen
    exact from_file_of hsig hv hlen
  · intro e _
    cases e <;> simp

/-- C2 witness: a stream of 512 sevens is rejected with InvalidSignature,
and the minimal complete 512-byte stream parses successfully. -/
theorem C2_witness :
    Replay.from_file badSig = .error .invalidSignature ∧
    ∃ r t, Replay.from_file base512 = .ok (r, t) :=
  ⟨((C2_error_taxonomy badSig).1).mpr (by decide),
   ((C2_error_taxonomy base512).2.2.1) (by decide) (by decide) (by decide)⟩

/-- C2 counterexample: the claim as stated says every truncated input (a
read obtaining fewer bytes than requested) surfaces as StreamExhausted, but
a stream cut at byte 240 - inside the 272-byte padding skip - parses
successfully: the discarded short read raises nothing. -/
theorem C2_counterexample :
    trunc240.length = 240 ∧
    (Replay.from_file trunc240).toOption.map (fun p => p.2.length) = some 0 := by
  constructor <;> decide

/-- C3: every data block of a successful parse has
heading = atan2(-(fx/32767), fy/32767) computed from that block's own
decoded fx and fy, and a block with fx = 32767, fy = 0 has heading within
1e-6 of -pi/2 (here exactly -pi/2). -/
theorem C3_heading_law :
    ∀ s r t, Replay.from_file s = .ok (r, t) → ∀ i, (hi : i < r.data.length) →
      (r.data.get ⟨i, hi⟩).heading =
        atan2 (-(((r.data.get ⟨i, hi⟩).fx : ℝ) / 32767))
          (((r.data.get ⟨i, hi⟩).fy : ℝ) / 32767) ∧
      ((r.data.get ⟨i, hi⟩).fx = 32767 → (r.data.get ⟨i, hi⟩).fy = 0 →
        |(r.data.get ⟨i, hi⟩).heading - (-(Real.pi / 2))| ≤ 1 / 1000000) := by
  intro s r t h i hi
  obtain ⟨-, -, -, -, -, -, hall, -, -⟩ := from_file_ok_inv h
  have hmem := hall (r.data.get ⟨i, hi⟩) (r.data.get_mem i hi)
  refine ⟨hmem.2, ?_⟩
  intro hfx hfy
  rw [hmem.2, hfx, hfy]
  push_cast
  rw [show -((32767 : ℝ) / 32767) = -1 by norm_num, show (0 : ℝ) / 32767 = 0 by norm_num]
  rw [atan2_neg_one_zero]
  simp

/-- C3 witness: the constructed stream with fx = 32767, fy = 0 yields a
block whose heading is within 1e-6 of -pi/2. -/
theorem C3_witness : |c3heading - (-(Real.pi / 2))| ≤ 1 / 1000000 := by
  have h := C3_heading_law c3s c3r (okOr (Replay.from_file c3s) (dfltReplay, [])).2
    (by rfl) 0 (by decide)
  exact h.2 (by decide) (by decide)

/-- C4: for every successful parse with a wheel count in 1..4, the static
wheel list has num_wheels entries and every sample block carries
num_wheels dynamic wheel records. -/
theorem C4_wheel_invariant :
    ∀ s r t, Replay.from_file s = .ok (r, t) →
      1 ≤ r.num_wheels → r.num_wheels ≤ 4 →
      r.static_wheel_info.length = r.num_wheels ∧
      ∀ i, (hi : i < r.data.length) →
        (r.data.get ⟨i, hi⟩).wheels.length = r.num_wheels := by
  intro s r t h h1 h4
  obtain ⟨-, -, -, -, hwlen, -, hall, -, -⟩ := from_file_ok_inv h
  exact ⟨hwlen, fun i hi => (hall _ (r.data.get_mem i hi)).1⟩

/-- C4 witness: the one-wheel one-sample stream parses with one static
wheel record and one wheel record on its sample. -/
theorem C4_witness :
    c4r.static_wheel_info.length = c4r.num_wheels ∧
    ∀ i, (hi : i < c4r.data.length) →
      (c4r.data.get ⟨i, hi⟩).wheels.length = c4r.num_wheels :=
  C4_wheel_invariant c4s c4r (okOr (Replay.from_file c4s) (dfltReplay, [])).2
    (by rfl) (by decide) (by decide)

/-- C5 (amended): the split list of a successful parse is the four stored
little-endian int32 values truncated to the first num_splits entries, so
its length is min(num_splits, 4) - not num_splits itself, which the
counterexample refutes for num_splits = 5. -/
theorem C5_split_truncation :
    ∀ s r t, Replay.from_file s = .ok (r, t) →
      r.num_splits = s.getD 171 0 ∧
      r.splits = ([i32le ((s.drop 172).take 4), i32le ((s.drop 176).take 4),
                   i32le ((s.drop 180).take 4), i32le ((s.drop 184).take 4)]).take r.num_splits ∧
      r.splits.length = min r.num_splits 4 := by
  intro s r t h
  obtain ⟨-, -, -, -, -, -, -, -, hr⟩ := from_file_ok_inv h
  have h1 : r.num_splits = s.getD 171 0 := by rw [hr]; rfl
  have h2 : r.splits = ([i32le ((s.drop 172).take 4), i32le ((s.drop 176).take 4),
      i32le ((s.drop 180).take 4), i32le ((s.drop 184).take 4)]).take (s.getD 171 0) := by
    rw [hr]
    rfl
  refine ⟨h1, by rw [h1]; exact h2, ?_⟩
  rw [h2, h1]
  simp [List.length_take]

/-- C5 witness: a header declaring two splits parses with exactly two
splits. -/
theorem C5_witness :
    c5r.num_splits = c5w.getD 171 0 ∧
    c5r.splits = ([i32le ((c5w.drop 172).take 4), i32le ((c5w.drop 176).take 4),
                   i32le ((c5w.drop 180).take 4), i32le ((c5w.drop 184).take 4)]).take c5r.num_splits ∧
    c5r.splits.length = min c5r.num_splits 4 :=
  C5_split_truncation c5w c5r (okOr (Replay.from_file c5w) (dfltReplay, [])).2 (by rfl)

/-- C5 counterexample: with the num_splits byte set to 5 the parse succeeds
with num_splits = 5 but only 4 splits, refuting
len(splits) == num_splits for every byte value. -/
theorem C5_counterexample :
    (Replay.from_file c5s).toOption.map (fun p => (p.1.num_splits, p.1.splits.length)) =
      some (5, 4) := by
  decide

/-- C6 (amended): each fixed-width string field is the raw bytes of its
region truncated at the first null byte; when the region holds no null
byte the parsed value is the first n-1 characters (the final character is
dropped, Python find returning -1), not the full n characters. -/
theorem C6_string_truncation :
    (∀ s r t, Replay.from_file s = .ok (r, t) →
      r.short_track_name = pyNullTrunc ((s.drop 24).take 4) ∧
      r.player = pyNullTrunc ((s.drop 32).take 32) ∧
      r.car = pyNullTrunc ((s.drop 64).take 32) ∧
      r.track = pyNullTrunc ((s.drop 96).take 32) ∧
      r.config = pyNullTrunc ((s.drop 128).take 16) ∧
      r.weather = pyNullTrunc ((s.drop 144).take 16) ∧
      r.lfs_version = pyNullTrunc ((s.drop 160).take 8)) ∧
    (∀ cs t2, (∀ c ∈ cs, c ≠ 0) → pyNullTrunc (cs ++ 0 :: t2) = cs) ∧
    (∀ raw : List Nat, (∀ c ∈ raw, c ≠ 0) → pyNullTrunc raw = raw.dropLast) := by
  refine ⟨?_, fun cs t2 h => pyNullTrunc_append_zero t2 h, fun raw h => pyNullTrunc_no_zero h⟩
  intro s r t h
  obtain ⟨-, -, -, -, -, -, -, -, hr⟩ := from_file_ok_inv h
  rw [hr]
  exact ⟨rfl, rfl, rfl, rfl, rfl, rfl, rfl⟩

/-- C6 witness: on the minimal complete stream (all string regions null),
every string field parses to the empty string, matching truncation at the
first null. -/
theorem C6_witness :
    baseR.short_track_name = pyNullTrunc ((base512.drop 24).take 4) ∧
    baseR.player = pyNullTrunc ((base512.drop 32).take 32) ∧
    baseR.car = pyNullTrunc ((base512.drop 64).take 32) ∧
    baseR.track = pyNullTrunc ((base512.drop 96).take 32) ∧
    baseR.config = pyNullTrunc ((base512.drop 128).take 16) ∧
    baseR.weather = pyNullTrunc ((base512.drop 144).take 16) ∧
    baseR.lfs_version = pyNullTrunc ((base512.drop 160).take 8) :=
  (C6_string_truncation.1) base512 baseR
    (okOr (Replay.from_file base512) (dfltReplay, [])).2 (by rfl)

/-- C6 counterexample: a player field of 32 non-null bytes parses to only
31 characters, refuting the claim that a full-width string with no null
byte is returned unchanged. -/
theorem C6_counterexample :
    (c6s.drop 32).take 32 = List.replicate 32 65 ∧
    (Replay.from_file c6s).toOption.map (fun p => p.1.player) =
      some (List.replicate 31 65) := by
  constructor <;> decide

/-- C7: the raw hlvc byte is decoded 0 to unknown, 1 to legal, other
nonzero to illegal, but the decoded tri-state is stored into player_flags
(overwriting the driver-aid byte) while hlvc_legal is left unset - the
code contradicts its own field documentation.  Evidence at hlvc bytes
1, 2 and 0 with player-flag byte 5. -/
theorem C7_field_reuse_evidence :
    (Replay.from_file c7s1).toOption.map (fun p => (p.1.player_flags, p.1.hlvc_legal)) =
      some (.hlvcBool true, none) ∧
    (Replay.from_file c7s2).toOption.map (fun p => (p.1.player_flags, p.1.hlvc_legal)) =
      some (.hlvcBool false, none) ∧
    (Replay.from_file c7s0).toOption.map (fun p => (p.1.player_flags, p.1.hlvc_legal)) =
      some (.flagsByte 5, none) ∧
    c7s1.getD 168 0 = 5 ∧ c7s1.getD 170 0 = 1 := by
  refine ⟨by decide, by decide, by decide, by decide, by decide⟩

/-- C8 (amended): the data block reader consumes exactly 64 fixed bytes in
the layout 5 float32 (throttle, brake, input_steer, clutch, handbrake),
4 signed int8 (gear, lateral_g, forward_g, upwards_g), 2 float32 (speed,
car_distance), 3 int32, 2 float32, 6 int16 - handbrake is a float and
upwards_g a signed byte, and the total is 64, not the claimed 68. -/
theorem C8_block_layout :
    ∀ s b t, DataBlock.from_file s = .ok (b, t) →
      64 ≤ s.length ∧ t = s.drop 64 ∧
      b.throttle = f32le (s.take 4) ∧ b.brake = f32le ((s.drop 4).take 4) ∧
      b.input_steer = f32le ((s.drop 8).take 4) ∧ b.clutch = f32le ((s.drop 12).take 4) ∧
      b.handbrake = f32le ((s.drop 16).take 4) ∧
      b.gear = i8dec (s.getD 20 0) ∧ b.lateral_g = i8dec (s.getD 21 0) ∧
      b.forward_g = i8dec (s.getD 22 0) ∧ b.upwards_g = i8dec (s.getD 23 0) ∧
      b.speed = f32le ((s.drop 24).take 4) ∧ b.car_distance = f32le ((s.drop 28).take 4) ∧
      b.position_x = i32le ((s.drop 32).take 4) ∧ b.position_y = i32le ((s.drop 36).take 4) ∧
      b.position_z = i32le ((s.drop 40).take 4) ∧
      b.engine_speed = f32le ((s.drop 44).take 4) ∧
      b.index_distance = f32le ((s.drop 48).take 4) ∧
      b.rx = i16le ((s.drop 52).take 2) ∧ b.ry = i16le ((s.drop 54).take 2) ∧
      b.rz = i16le ((s.drop 56).take 2) ∧ b.fx = i16le ((s.drop 58).take 2) ∧
      b.fy = i16le ((s.drop 60).take 2) ∧ b.fz = i16le ((s.drop 62).take 2) := by
  intro s b t h
  obtain ⟨h64, hb, ht⟩ := block_ok_inv h
  subst hb
  exact ⟨h64, ht, rfl, rfl, rfl, rfl, rfl, rfl, rfl, rfl, rfl, rfl, rfl, rfl, rfl,
    rfl, rfl, rfl, rfl, rfl, rfl, rfl, rfl, rfl⟩

/-- C8 witness: a 64-byte zero stream decodes with nothing left over. -/
theorem C8_witness :
    64 ≤ (List.replicate 64 0 : List Nat).length ∧
    (okOr (DataBlock.from_file (List.replicate 64 0)) (dfltBlock, [])).2 =
      (List.replicate 64 0 : List Nat).drop 64 := by
  have h := C8_block_layout (List.replicate 64 0)
    (okOr (DataBlock.from_file (List.replicate 64 0)) (dfltBlock, [])).1
    (okOr (DataBlock.from_file (List.replicate 64 0)) (dfltBlock, [])).2 (by rfl)
  exact ⟨h.1, h.2.1⟩

/-- C8 counterexample: on a 67-byte stream of fives the reader succeeds
consuming only 64 bytes (3 remain), decodes handbrake as the 32-bit float
pattern of bytes 16..19 and gear as the signed byte at offset 20 -
refuting the claimed 4-float/4-int8 pairing and 68-byte total. -/
theorem C8_counterexample :
    (DataBlock.from_file (List.replicate 67 5)).toOption.map (fun p => p.2) =
      some (List.replicate 3 5) ∧
    (DataBlock.from_file (List.replicate 67 5)).toOption.map (fun p => p.1.handbrake) =
      some 84215045 ∧
    (DataBlock.from_file (List.replicate 67 5)).toOption.map (fun p => p.1.gear) =
      some 5 := by
  refine ⟨by decide, by decide, by decide⟩

/-- C9 (amended): a successful static-wheel read requires 48 bytes of field
region (6 float32, a 5-byte pad, the tyre byte, a 2-byte pad, 4 float32 -
the claimed 45 is off by three), discards 80 further bytes, and leaves the
stream at drop 128, i.e. advances exactly 128 bytes whenever that many are
available. -/
theorem C9_static_layout :
    ∀ s w t, StaticWheelInfo.from_file s = .ok (w, t) →
      48 ≤ s.length ∧ w = staticOf s ∧ t = s.drop 128 ∧
      (128 ≤ s.length → s.length - t.length = 128) := by
  intro s w t h
  obtain ⟨h48, hw, ht⟩ := static_ok_inv h
  refine ⟨h48, hw, ht, ?_⟩
  intro h128
  rw [ht]
  simp only [List.length_drop]
  omega

/-- C9 witness: a 128-byte zero stream reads one record and advances
exactly 128 bytes. -/
theorem C9_witness :
    48 ≤ (List.replicate 128 0 : List Nat).length ∧
    (128 ≤ (List.replicate 128 0 : List Nat).length →
      (List.replicate 128 0 : List Nat).length -
        (okOr (StaticWheelInfo.from_file (List.replicate 128 0)) (staticOf [], [])).2.length = 128) := by
  have h := C9_static_layout (List.replicate 128 0)
    (okOr (StaticWheelInfo.from_file (List.replicate 128 0)) (staticOf [], [])).1
    (okOr (StaticWheelInfo.from_file (List.replicate 128 0)) (staticOf [], [])).2 (by rfl)
  exact ⟨h.1, h.2.2.2⟩

/-- C9 counterexample: 45 bytes do not cover the field region (the read
fails), and on a 125-byte stream the record is read successfully yet the
cursor advances only 125 bytes, refuting both the 45-byte field region and
the unconditional 128-byte advance. -/
theorem C9_counterexample :
    errOf (StaticWheelInfo.from_file (List.replicate 45 0)) = some .streamExhausted ∧
    (StaticWheelInfo.from_file (List.replicate 125 7)).toOption.map (fun p => p.2) =
      some [] := by
  constructor <;> decide

/-- C10 (amended): a successful parse leaves the cursor at
drop (512 + 128*num_wheels + num_blocks*(64 + 32*num_wheels)), so it
consumes exactly that many bytes whenever the stream holds at least that
many; num_wheels is the decoded wheel byte and the block list length the
decoded 32-bit sample count.  (A shorter stream can still succeed when the
missing bytes fall in trailing skip regions - see the counterexample.) -/
theorem C10_consumption :
    ∀ s r t, Replay.from_file s = .ok (r, t) →
      t = s.drop (totalBytes r.num_wheels r.data.length) ∧
      (totalBytes r.num_wheels r.data.length ≤ s.length →
        s.length - t.length = totalBytes r.num_wheels r.data.length) ∧
      r.num_wheels = s.getD 169 0 ∧ r.data.length = nbOf s := by
  intro s r t h
  obtain ⟨-, -, -, hnw, -, hnb, -, ht, -⟩ := from_file_ok_inv h
  refine ⟨ht, ?_, hnw, hnb⟩
  intro hle
  rw [ht]
  simp only [List.length_drop]
  omega

/-- C10 witness: the minimal complete stream (512 bytes, no wheels, no
samples) consumes exactly 512 bytes. -/
theorem C10_witness :
    (okOr (Replay.from_file base512) (dfltReplay, [])).2 =
      base512.drop (totalBytes baseR.num_wheels baseR.data.length) ∧
    (totalBytes baseR.num_wheels baseR.data.length ≤ base512.length →
      base512.length - (okOr (Replay.from_file base512) (dfltReplay, [])).2.length =
        totalBytes baseR.num_wheels baseR.data.length) := by
  have h := C10_consumption base512 baseR
    (okOr (Replay.from_file base512) (dfltReplay, [])).2 (by rfl)
  exact ⟨h.1, h.2.1⟩

/-- C10 counterexample: the 240-byte truncated stream parses successfully
(num_wheels 0, no samples) while consuming only 240 bytes, refuting the
claim that every successful parse consumes exactly 512 + 128*num_wheels +
num_blocks*(64 + 32*num_wheels) = 512 bytes here. -/
theorem C10_counterexample :
    trunc240.length = 240 ∧
    (Replay.from_file trunc240).toOption.map
      (fun p => (p.1.num_wheels, p.1.data.length, p.2.length)) = some (0, 0, 0) := by
  constructor <;> decide

theorem take_app {a t : List Nat} {n : Nat} (h : a.length = n) : (a ++ t).take n = a :=
  List.take_left' h

theorem drop_app {a t : List Nat} {n : Nat} (h : a.length = n) : (a ++ t).drop n = t :=
  List.drop_left' h

theorem take_all {a : List Nat} {n : Nat} (h : a.length = n) : a.take n = a := by
  subst h
  exact List.take_length a

theorem drop_app_ge {a t : List Nat} {n : Nat} (h : a.length ≤ n) :
    (a ++ t).drop n = t.drop (n - a.length) := by
  rw [List.drop_append_eq_append_drop, List.drop_of_length_le h, List.nil_append]

theorem take_app_ge {a t : List Nat} {n : Nat} (h : a.length ≤ n) :
    (a ++ t).take n = a ++ t.take (n - a.length) := by
  rw [List.take_append_eq_append_take, List.take_of_length_le h]

theorem length_u16e (v : Nat) : (u16e v).length = 2 := rfl

theorem length_u32e (v : Nat) : (u32e v).length = 4 := rfl

theorem length_i16e (v : Int) : (i16e v).length = 2 := rfl

theorem length_i32e (v : Int) : (i32e v).length = 4 := rfl

theorem length_strE {w : Nat} {cs : List Nat} (h : cs.length ≤ w) : (strE w cs).length = w := by
  simp [strE]
  omega

theorem length_flatten_i32e (l : List Int) : ((l.map i32e).flatten).length = 4 * l.length := by
  induction l with
  | nil => rfl
  | cons a l ih =>
    simp only [List.map_cons, List.flatten_cons, List.length_append, length_i32e, ih,
      List.length_cons]
    ring

theorem length_encSplits {l : List Int} (h : l.length ≤ 4) : (encSplits l).length = 16 := by
  simp only [encSplits, List.length_append, length_flatten_i32e, List.length_replicate]
  omega

theorem length_encStatic (w : StaticWheelInfo) : (encStatic w).length = 128 := by
  simp [encStatic, u32e]

theorem length_encDyn (d : DynamicWheelInfo) : (encDyn d).length = 32 := by
  simp [encDyn, u32e]

theorem length_encBlockFixed (b : DataBlock) : (encBlockFixed b).length = 64 := by
  simp [encBlockFixed, u32e, i16e, i32e, u16e]

theorem splits_decode {l : List Int} (h4 : l.length ≤ 4)
    (hr : ∀ x ∈ l, -2147483648 ≤ x ∧ x < 2147483648) :
    ([i32le ((encSplits l).take 4), i32le (((encSplits l).drop 4).take 4),
      i32le (((encSplits l).drop 8).take 4),
      i32le (((encSplits l).drop 12).take 4)]).take l.length = l := by
  have hi32 : ∀ x ∈ l, i32le (i32e x) = x := fun x hx =>
    i32le_i32e (hr x hx).1 (hr x hx).2
  rcases l with - | ⟨a, l⟩
  · simp
  rcases l with - | ⟨b, l⟩
  · simp +decide [encSplits, take_app, drop_app, drop_app_ge, take_all, length_i32e, hi32]
  rcases l with - | ⟨c, l⟩
  · simp +decide [encSplits, take_app, drop_app, drop_app_ge, take_all, length_i32e, hi32]
  rcases l with - | ⟨d, l⟩
  · simp +decide [encSplits, take_app, drop_app, drop_app_ge, take_all, length_i32e, hi32]
  rcases l with - | ⟨e, l⟩
  · simp +decide [encSplits, take_app, drop_app, drop_app_ge, take_all, length_i32e, hi32]
  · simp at h4

theorem rdChk_append {a t : List Nat} {n : Nat} (h : a.length = n) :
    rdChk n (a ++ t) = .ok (a, t) := by
  rw [rdChk, if_pos (by simp [List.length_append, h]), take_app h, drop_app h]

theorem rdSkip_append {a t : List Nat} {n : Nat} (h : a.length = n) :
    rdSkip n (a ++ t) = t := by
  rw [rdSkip, drop_app h]

theorem gears_decode {g : List Nat} (h7 : g.length = 7) (hr : ∀ x ∈ g, x < 4294967296) :
    [f32le (((g.map u32e).flatten).take 4), f32le ((((g.map u32e).flatten).drop 4).take 4),
     f32le ((((g.map u32e).flatten).drop 8).take 4),
     f32le ((((g.map u32e).flatten).drop 12).take 4),
     f32le ((((g.map u32e).flatten).drop 16).take 4),
     f32le ((((g.map u32e).flatten).drop 20).take 4),
     f32le ((((g.map u32e).flatten).drop 24).take 4)] = g := by
  have hu : ∀ x ∈ g, u32le (u32e x) = x := fun x hx => u32le_u32e (hr x hx)
  rcases g with - | ⟨a, g⟩
  · simp at h7
  rcases g with - | ⟨b, g⟩
  · simp at h7
  rcases g with - | ⟨c, g⟩
  · simp at h7
  rcases g with - | ⟨d, g⟩
  · simp at h7
  rcases g with - | ⟨e, g⟩
  · simp at h7
  rcases g with - | ⟨f2, g⟩
  · simp at h7
  rcases g with - | ⟨f3, g⟩
  · simp at h7
  rcases g with - | ⟨f4, g⟩
  · simp +decide [f32le, take_app, drop_app, drop_app_ge, take_all, length_u32e, hu]
  · simp at h7

theorem length_flatten_u32e (l : List Nat) : ((l.map u32e).flatten).length = 4 * l.length := by
  induction l with
  | nil => rfl
  | cons a l ih =>
    simp only [List.map_cons, List.flatten_cons, List.length_append, length_u32e, ih,
      List.length_cons]
    ring

theorem parseHeader_enc {r : Replay} (hrep : Representable r) (tail : List Nat) :
    parseHeader (encHeader r ++ tail) =
      .ok ({ r with static_wheel_info := [], data := [] }, r.data.length, tail) := by
  obtain ⟨hv, hu2, hstn, htrl, hpl, hca, htk, hcfg, hwth, hlv, hpf, hpfb, hnw, hhl, hns, hns4,
    hsp, hm, hsm, har, haf, hfd, hng, hgr1, hgr7, hgrb, hswl, hsw, hdl, hbl⟩ := hrep
  obtain ⟨g, hGR⟩ : ∃ g, r.gear_ratios = [g] := by
    rcases hx : r.gear_ratios with - | ⟨g0, rest⟩
    · rw [hx] at hgr1
      simp at hgr1
    · rcases rest with - | ⟨y, rest⟩
      · exact ⟨g0, rfl⟩
      · rw [hx] at hgr1
        simp at hgr1
  rw [hGR] at hgr7 hgrb
  simp only [List.getD_cons_zero] at hgr7 hgrb
  have hs : encHeader r ++ tail =
      sigBytes ++ ([0, 0] ++ ([r.raf_version, r.update_interval] ++ ([0, 0] ++ ((List.replicate 8 0 ++ u32e r.data.length) ++ (strE 4 r.short_track_name ++ (u32e r.track_ruler_length ++ (strE 32 r.player ++ (strE 32 r.car ++ (strE 32 r.track ++ (strE 16 r.config ++ (strE 16 r.weather ++ (strE 8 r.lfs_version ++ ([pfByteOf r.player_flags, r.num_wheels, hlvcByteOf r.hlvc_legal, r.num_splits] ++ (encSplits r.splits ++ ((u32e r.mass ++ (u32e r.sprung_mass ++ (u32e r.antiroll_rear ++ (u32e r.antiroll_front ++ u32e r.final_drive)))) ++ ([r.num_gears] ++ ([0, 0, 0] ++ ((g.map u32e).flatten ++ (List.replicate 272 0 ++ (tail)))))))))))))))))))) := by
    simp [encHeader, hGR, List.append_assoc]
  rw [hs]
  unfold parseHeader
  rw [rdChk_append (show sigBytes.length = 6 from rfl)]
  simp only [ebind_ok]
  rw [if_neg (by simp)]
  rw [rdSkip_append (show ([0, 0] : List Nat).length = 2 from rfl)]
  rw [rdChk_append (show ([r.raf_version, r.update_interval] : List Nat).length = 2 from rfl)]
  simp only [ebind_ok, List.getD_cons_zero, List.getD_cons_succ]
  rw [if_neg (by omega)]
  unfold parseHeaderRest
  rw [rdSkip_append (show ([0, 0] : List Nat).length = 2 from rfl)]
  simp only [ebind_ok]
  rw [rdChk_append (show (List.replicate 8 0 ++ u32e r.data.length).length = 12 by
    simp [length_u32e])]
  simp only [ebind_ok]
  rw [rdChk_append (length_strE (le_of_lt hstn.1))]
  simp only [ebind_ok]
  rw [rdChk_append (length_u32e r.track_ruler_length)]
  simp only [ebind_ok]
  rw [rdChk_append (length_strE (le_of_lt hpl.1))]
  simp only [ebind_ok]
  rw [rdChk_append (length_strE (le_of_lt hca.1))]
  simp only [ebind_ok]
  rw [rdChk_append (length_strE (le_of_lt htk.1))]
  simp only [ebind_ok]
  rw [rdChk_append (length_strE (le_of_lt hcfg.1))]
  simp only [ebind_ok]
  rw [rdChk_append (length_strE (le_of_lt hwth.1))]
  simp only [ebind_ok]
  rw [rdChk_append (length_strE (le_of_lt hlv.1))]
  simp only [ebind_ok]
  rw [rdChk_append (show ([pfByteOf r.player_flags, r.num_wheels, hlvcByteOf r.hlvc_legal,
    r.num_splits] : List Nat).length = 4 from rfl)]
  simp only [ebind_ok]
  rw [rdChk_append (length_encSplits hns4)]
  simp only [ebind_ok]
  rw [rdChk_append (show (u32e r.mass ++ (u32e r.sprung_mass ++ (u32e r.antiroll_rear ++
    (u32e r.antiroll_front ++ u32e r.final_drive)))).length = 20 by simp [length_u32e])]
  simp only [ebind_ok]
  rw [rdChk_append (show ([r.num_gears] : List Nat).length = 1 from rfl)]
  simp only [ebind_ok]
  rw [rdSkip_append (show ([0, 0, 0] : List Nat).length = 3 from rfl)]
  rw [rdChk_append (show ((g.map u32e).flatten).length = 28 by
    rw [length_flatten_u32e, hgr7])]
  simp only [ebind_ok]
  rw [rdSkip_append (show (List.replicate 272 0 : List Nat).length = 272 by simp)]
  simp only [ebind_ok, List.getD_cons_zero, List.getD_cons_succ]
  rw [hns, splits_decode hns4 hsp]
  rw [gears_decode hgr7 hgrb]
  rw [hhl]
  simp only [hlvcByteOf, Nat.lt_irrefl, if_false]
  rw [pyNullTrunc_strE (fun c hcm => (hstn.2 c hcm).1) hstn.1]
  rw [pyNullTrunc_strE (fun c hcm => (hpl.2 c hcm).1) hpl.1]
  rw [pyNullTrunc_strE (fun c hcm => (hca.2 c hcm).1) hca.1]
  rw [pyNullTrunc_strE (fun c hcm => (htk.2 c hcm).1) htk.1]
  rw [pyNullTrunc_strE (fun c hcm => (hcfg.2 c hcm).1) hcfg.1]
  rw [pyNullTrunc_strE (fun c hcm => (hwth.2 c hcm).1) hwth.1]
  rw [pyNullTrunc_strE (fun c hcm => (hlv.2 c hcm).1) hlv.1]
  simp +decide only [drop_app, take_all, take_app, drop_app_ge, length_u32e,
    List.length_replicate, f32le, Nat.reduceSub, Nat.le_refl]
  rw [u32le_u32e hdl, u32le_u32e htrl, u32le_u32e hm, u32le_u32e hsm, u32le_u32e har,
    u32le_u32e haf, u32le_u32e hfd]
  rw [← hpf, ← hGR]

theorem getD_app_lt {a t : List Nat} {i : Nat} (h : i < a.length) :
    (a ++ t).getD i 0 = a.getD i 0 := by
  simp [List.getD_eq_getElem?_getD, List.getElem?_append_left h]

theorem getD_app_ge {a t : List Nat} {i : Nat} (h : a.length ≤ i) :
    (a ++ t).getD i 0 = t.getD (i - a.length) 0 := by
  simp [List.getD_eq_getElem?_getD, List.getElem?_append_right h]

theorem static_enc {w : StaticWheelInfo} (hw : WheelRep w) (t : List Nat) :
    StaticWheelInfo.from_file (encStatic w ++ t) = .ok (w, t) := by
  obtain ⟨hwt, h1, h2, h3, h4, h5, h6, h7, h8, h9, h10⟩ := hw
  have hs : encStatic w ++ t =
      (u32e w.x ++ (u32e w.y ++ (u32e w.z ++ (u32e w.radius ++ (u32e w.width ++
        (u32e w.maximum_deflect ++ (List.replicate 5 0 ++ ([w.tyre_type.getD 0] ++
        ([0, 0] ++ (u32e w.spring_constant ++ (u32e w.damping_c ++ (u32e w.damping_r ++
        u32e w.max_brake_torque)))))))))))) ++ (List.replicate 80 0 ++ t) := by
    simp [encStatic, List.append_assoc]
  rw [hs]
  unfold StaticWheelInfo.from_file
  rw [rdChk_append (by simp [length_u32e])]
  simp only [ebind_ok]
  rw [rdSkip_append (show (List.replicate 80 0 : List Nat).length = 80 by simp)]
  simp +decide only [drop_app, take_all, take_app, drop_app_ge, length_u32e,
    List.length_replicate, List.length_cons, List.length_nil, f32le, Nat.reduceSub,
    Nat.reduceAdd]
  rw [u32le_u32e h1, u32le_u32e h2, u32le_u32e h3, u32le_u32e h4, u32le_u32e h5,
    u32le_u32e h6, u32le_u32e h7, u32le_u32e h8, u32le_u32e h9, u32le_u32e h10]
  rw [← hwt]

theorem dyn_enc {d : DynamicWheelInfo} (hd : DynRep d) (t : List Nat) :
    DynamicWheelInfo.from_file (encDyn d ++ t) = .ok (d, t) := by
  obtain ⟨h1, h2, h3, h4, h5, h6, h7, h8a, h8b, h9a, h9b⟩ := hd
  have hs : encDyn d ++ t =
      (u32e d.suspension_deflect ++ (u32e d.steer ++ (u32e d.x_force ++ (u32e d.y_force ++
        (u32e d.vertical_load ++ (u32e d.angular_velocity ++ (u32e (leanOf d) ++
        ([i8e d.air_temp, i8e d.slip_fraction] ++ [0, 0])))))))) ++ t := by
    simp [encDyn, List.append_assoc]
  rw [hs]
  unfold DynamicWheelInfo.from_file
  rw [rdChk_append (by simp [length_u32e])]
  simp only [ebind_ok]
  simp +decide only [drop_app, take_all, take_app, drop_app_ge, getD_app_lt, getD_app_ge,
    length_u32e, List.length_replicate, List.length_cons, List.length_nil, f32le,
    Nat.reduceSub, Nat.reduceAdd, List.getD_cons_zero, List.getD_cons_succ]
  rw [u32le_u32e h1, u32le_u32e h2, u32le_u32e h3, u32le_u32e h4, u32le_u32e h5,
    u32le_u32e h6, u32le_u32e h7]
  rw [i8dec_i8e h8a h8b, i8dec_i8e h9a h9b]
  obtain ⟨sd, st, xf, yf, vl, av, ln, at2, sf⟩ := d
  rfl

theorem block_enc {nw : Nat} {b : DataBlock} (hb : BlockRep nw b) (t : List Nat) :
    DataBlock.from_file (encBlockFixed b ++ t) =
      .ok ({ hFix b with wheels := [] }, t) := by
  obtain ⟨h1, h2, h3, h4, h5, hg1, hg2, hl1, hl2, hf1, hf2, hu1, hu2, h6, h7,
    hx1, hx2, hy1, hy2, hz1, hz2, h8, h9, hrx1, hrx2, hry1, hry2, hrz1, hrz2,
    hfx1, hfx2, hfy1, hfy2, hfz1, hfz2, hwl, hwr⟩ := hb
  have hs : encBlockFixed b ++ t =
      (u32e b.throttle ++ (u32e b.brake ++ (u32e b.input_steer ++ (u32e b.clutch ++
        (u32e b.handbrake ++ ([i8e b.gear, i8e b.lateral_g, i8e b.forward_g, i8e b.upwards_g] ++
        (u32e b.speed ++ (u32e b.car_distance ++ (i32e b.position_x ++ (i32e b.position_y ++
        (i32e b.position_z ++ (u32e b.engine_speed ++ (u32e b.index_distance ++
        (i16e b.rx ++ (i16e b.ry ++ (i16e b.rz ++ (i16e b.fx ++ (i16e b.fy ++
        i16e b.fz)))))))))))))))))) ++ t := by
    simp [encBlockFixed, List.append_assoc]
  rw [hs]
  unfold DataBlock.from_file
  rw [rdChk_append (by simp [length_u32e, length_i32e, length_i16e])]
  simp only [ebind_ok]
  simp +decide only [drop_app, take_all, take_app, drop_app_ge, getD_app_lt, getD_app_ge,
    length_u32e, length_i32e, length_i16e, List.length_cons, List.length_nil, f32le,
    Nat.reduceSub, Nat.reduceAdd, List.getD_cons_zero, List.getD_cons_succ]
  rw [u32le_u32e h1, u32le_u32e h2, u32le_u32e h3, u32le_u32e h4, u32le_u32e h5,
    u32le_u32e h6, u32le_u32e h7, u32le_u32e h8, u32le_u32e h9]
  rw [i8dec_i8e hg1 hg2, i8dec_i8e hl1 hl2, i8dec_i8e hf1 hf2, i8dec_i8e hu1 hu2]
  rw [i32le_i32e hx1 hx2, i32le_i32e hy1 hy2, i32le_i32e hz1 hz2]
  rw [i16le_i16e hrx1 hrx2, i16le_i16e hry1 hry2, i16le_i16e hrz1 hrz2,
    i16le_i16e hfx1 hfx2, i16le_i16e hfy1 hfy2, i16le_i16e hfz1 hfz2]
  rfl

theorem readStatics_enc {ws : List StaticWheelInfo} (hws : ∀ w ∈ ws, WheelRep w)
    (t : List Nat) :
    readStatics ws.length ((ws.map encStatic).flatten ++ t) = .ok (ws, t) := by
  induction ws with
  | nil => simp [readStatics]
  | cons w ws ih =>
    simp only [List.map_cons, List.flatten_cons, List.length_cons, List.append_assoc]
    unfold readStatics
    rw [static_enc (hws w (by simp)) ((ws.map encStatic).flatten ++ t)]
    simp only [ebind_ok]
    rw [ih (fun x hx => hws x (by simp [hx]))]
    simp only [ebind_ok]

theorem readDyns_enc {ds : List DynamicWheelInfo} (hds : ∀ d ∈ ds, DynRep d)
    (t : List Nat) :
    readDyns ds.length ((ds.map encDyn).flatten ++ t) = .ok (ds, t) := by
  induction ds with
  | nil => simp [readDyns]
  | cons d ds ih =>
    simp only [List.map_cons, List.flatten_cons, List.length_cons, List.append_assoc]
    unfold readDyns
    rw [dyn_enc (hds d (by simp)) ((ds.map encDyn).flatten ++ t)]
    simp only [ebind_ok]
    rw [ih (fun x hx => hds x (by simp [hx]))]
    simp only [ebind_ok]

theorem BlockRep.wheels_len {nw : Nat} {b : DataBlock} (h : BlockRep nw b) :
    b.wheels.length = nw := by
  obtain ⟨-, -, -, -, -, -, -, -, -, -, -, -, -, -, -, -, -, -, -, -, -, -, -, -, -, -,
    -, -, -, -, -, -, -, -, -, hwl, -⟩ := h
  exact hwl

theorem BlockRep.wheels_rep {nw : Nat} {b : DataBlock} (h : BlockRep nw b) :
    ∀ d ∈ b.wheels, DynRep d := by
  obtain ⟨-, -, -, -, -, -, -, -, -, -, -, -, -, -, -, -, -, -, -, -, -, -, -, -, -, -,
    -, -, -, -, -, -, -, -, -, -, hwr⟩ := h
  exact hwr

theorem readBlocks_enc {nw : Nat} {bs : List DataBlock} (hbs : ∀ b ∈ bs, BlockRep nw b)
    (t : List Nat) :
    readBlocks nw bs.length ((bs.map encBlock).flatten ++ t) = .ok (bs.map hFix, t) := by
  induction bs with
  | nil => simp [readBlocks]
  | cons b bs ih =>
    have hbr := hbs b (by simp)
    simp only [List.map_cons, List.flatten_cons, List.length_cons]
    unfold readBlocks
    have hs : (encBlock b ++ (bs.map encBlock).flatten) ++ t =
        encBlockFixed b ++ ((b.wheels.map encDyn).flatten ++ ((bs.map encBlock).flatten ++ t)) := by
      simp [encBlock, List.append_assoc]
    rw [hs]
    rw [block_enc hbr]
    simp only [ebind_ok]
    have hd := readDyns_enc (BlockRep.wheels_rep hbr) ((bs.map encBlock).flatten ++ t)
    rw [BlockRep.wheels_len hbr] at hd
    rw [hd]
    simp only [ebind_ok]
    rw [ih (fun x hx => hbs x (by simp [hx]))]
    simp only [ebind_ok]
    rfl

/-- C1 (amended): encoding a representable replay into the documented
binary layout and parsing it back returns the replay exactly, except that
each data block's heading is the recomputed atan2(-(fx/32767), fy/32767)
of that block's own fx, fy.  Representability necessarily includes: string
fields carry terminators (strictly shorter than their width), hlvc_legal
is unknown and player_flags is the numeric byte (the field-reuse bug
destroys both otherwise), and tyre_type is absent (the reader drops it);
the counterexample shows the original claim's full-width no-null strings
do not survive the trip. -/
theorem C1_roundtrip (r : Replay) (hrep : Representable r) :
    Replay.from_file (encode r) = .ok ({ r with data := r.data.map hFix }, []) := by
  have hrep2 := hrep
  obtain ⟨-, -, -, -, -, -, -, -, -, -, -, -, -, -, -, -, -, -, -, -, -, -, -, -, -, -,
    hswl, hsw, -, hbl⟩ := hrep2
  have hs : encode r = encHeader r ++ ((r.static_wheel_info.map encStatic).flatten ++
      ((r.data.map encBlock).flatten ++ ([] : List Nat))) := by
    simp [encode, List.append_assoc]
  rw [hs]
  unfold Replay.from_file
  rw [parseHeader_enc hrep]
  simp only [ebind_ok]
  rw [← hswl]
  rw [readStatics_enc hsw]
  simp only [ebind_ok]
  have hbl2 : ∀ b ∈ r.data, BlockRep r.static_wheel_info.length b := by
    rw [hswl]
    exact hbl
  rw [readBlocks_enc hbl2 []]
  simp only [ebind_ok]

/-- C1 witness: the one-wheel one-sample representable replay round-trips
(with the heading recomputation) through encode and parse. -/
theorem C1_witness :
    Replay.from_file (encode c1r1) = .ok ({ c1r1 with data := c1r1.data.map hFix }, []) :=
  C1_roundtrip c1r1 (by decide)

/-- C1 counterexample: a replay whose player string fills its full 32-byte
width with no null byte (explicitly allowed by the claim) does not
round-trip - the parse returns only the first 31 characters. -/
theorem C1_counterexample :
    c1r0.player = List.replicate 32 65 ∧
    (Replay.from_file (encode c1r0)).toOption.map (fun p => p.1.player) =
      some (List.replicate 31 65) := by
  constructor <;> decide

end LFSRaf

